import Mathlib

/-!
Shallow embedding of the discrete-event queueing simulation engine
(`simulacion_colas.cpp`): event scheduler, multi-server stations,
probabilistic routing, and the statistics reduction.

Randomness is modelled by a deterministic stream of rational values
(`GeneradorAleatorio.f`): each call of a distribution wrapper consumes one
stream entry, standing for the value produced by the corresponding C++
distribution object on the shared `mt19937` engine.  Machine doubles are
modelled as rationals; C++ `int` results of the discrete distributions are
modelled as integers obtained from the stream entry.
-/

namespace SimColas

/-- Identificador de la estación CAJAS (enum `IDEstacion`). -/
def CAJAS : ℕ := 0

/-- Identificador de la estación REFRESCOS. -/
def REFRESCOS : ℕ := 1

/-- Identificador de la estación FREIDORA. -/
def FREIDORA : ℕ := 2

/-- Identificador de la estación POSTRES. -/
def POSTRES : ℕ := 3

/-- Identificador de la estación POLLO. -/
def POLLO : ℕ := 4

/-- Número de estaciones (`NUM_ESTACIONES`). -/
def NUM_EST : ℕ := 5

/-- Tipos de eventos del sistema (`enum TipoEvento`). -/
inductive TipoEvento where
  | llegada
  | finServicio
  deriving DecidableEq, Repr

/-- Un evento de la simulación (`class Evento`).  El `-1` usado en C++ como
centinela para "no aplica" se representa con `none`. -/
structure Evento where
  tiempo : ℚ
  tipo : TipoEvento
  idCliente : Option ℕ
  idEstacion : Option ℕ
  deriving DecidableEq, Repr

/-- Un cliente del sistema (`class Cliente`), con los valores del constructor
por defecto. -/
structure Cliente where
  id : ℕ := 0
  tiempoLlegada : ℚ := 0
  tiempoEsperaTotal : ℚ := 0
  tiempoServicioTotal : ℚ := 0
  estaciones : List ℕ := []
  numOrdenes : ℤ := 0
  indiceEstacionActual : ℕ := 0
  tiempoEntradaCola : ℚ := 0
  deriving DecidableEq, Repr

instance : Inhabited Cliente := ⟨{}⟩

/-- Tiempo total en el sistema (`Cliente::getTiempoTotal`). -/
def Cliente.getTiempoTotal (c : Cliente) : ℚ :=
  c.tiempoEsperaTotal + c.tiempoServicioTotal

/-- Estado del generador aleatorio (`class GeneradorAleatorio`): un flujo de
valores con una posición de lectura, en lugar del `mt19937`. -/
structure GeneradorAleatorio where
  f : ℕ → ℚ
  pos : ℕ := 0

/-- Consume un valor del flujo (una llamada `dist(rng)` en C++). -/
def GeneradorAleatorio.next (g : GeneradorAleatorio) : ℚ × GeneradorAleatorio :=
  (g.f g.pos, { g with pos := g.pos + 1 })

/-- Consume un valor del flujo interpretado como resultado entero de una
distribución discreta de C++. -/
def GeneradorAleatorio.nextInt (g : GeneradorAleatorio) : ℤ × GeneradorAleatorio :=
  let (v, g') := g.next
  (⌊v⌋, g')

/-- Tiempo entre llegadas (`tiempoEntreLlegadas`, exponencial de tasa lambda;
el valor devuelto por la distribución es la entrada del flujo). -/
def GeneradorAleatorio.tiempoEntreLlegadas (g : GeneradorAleatorio) (_lambda : ℚ) :
    ℚ × GeneradorAleatorio :=
  g.next

/-- Tiempo de servicio exponencial (`tiempoServicioExp`). -/
def GeneradorAleatorio.tiempoServicioExp (g : GeneradorAleatorio) (_mu : ℚ) :
    ℚ × GeneradorAleatorio :=
  g.next

/-- Tiempo de servicio normal discreto (`tiempoServicioNormDisc`):
`max(1, round(draw))`. -/
def GeneradorAleatorio.tiempoServicioNormDisc (g : GeneradorAleatorio)
    (_media _desvEst : ℚ) : ℤ × GeneradorAleatorio :=
  let (v, g') := g.next
  (max 1 (round v), g')

/-- Tiempo de servicio binomial (`tiempoServicioBinom`): `max(1, dist(rng))`. -/
def GeneradorAleatorio.tiempoServicioBinom (g : GeneradorAleatorio)
    (_n : ℕ) (_p : ℚ) : ℤ × GeneradorAleatorio :=
  let (valor, g') := g.nextInt
  (max 1 valor, g')

/-- Tiempo de servicio geométrico (`tiempoServicioGeom`): `dist(rng) + 1`. -/
def GeneradorAleatorio.tiempoServicioGeom (g : GeneradorAleatorio) (_p : ℚ) :
    ℤ × GeneradorAleatorio :=
  let (valor, g') := g.nextInt
  (valor + 1, g')

/-- Número de órdenes del cliente (`numeroOrdenes`): `max(1, Binomial(5,0.4))`. -/
def GeneradorAleatorio.numeroOrdenes (g : GeneradorAleatorio) :
    ℤ × GeneradorAleatorio :=
  let (valor, g') := g.nextInt
  (max 1 valor, g')

/-- Decide si visitar una estación (`debeVisitar`): un uniforme en `[0,1)`
comparado estrictamente con la probabilidad. -/
def GeneradorAleatorio.debeVisitar (g : GeneradorAleatorio) (proba : ℚ) :
    Bool × GeneradorAleatorio :=
  let (v, g') := g.next
  (decide (v < proba), g')

/-- Una estación de servicio (`class Estacion`). -/
structure Estacion where
  id : ℕ := 0
  numServidores : ℕ := 0
  colaEspera : List ℕ := []
  servidorOcupado : List Bool := []
  tiempoTotalOcupado : ℚ := 0
  tiempoUltimoCambio : ℚ := 0
  totalAtendidos : ℕ := 0
  deriving DecidableEq, Repr

instance : Inhabited Estacion := ⟨{}⟩

/-- Constructor de la estación (`Estacion(idEstacion, servidores)`). -/
def mkEstacion (idEstacion servidores : ℕ) : Estacion :=
  { id := idEstacion, numServidores := servidores,
    colaEspera := [], servidorOcupado := List.replicate servidores false,
    tiempoTotalOcupado := 0, tiempoUltimoCambio := 0, totalAtendidos := 0 }

/-- Agrega un cliente a la cola FCFS (`Estacion::agregarCliente`). -/
def Estacion.agregarCliente (st : Estacion) (idCliente : ℕ) (_tiempoActual : ℚ) :
    Estacion :=
  { st with colaEspera := st.colaEspera ++ [idCliente] }

/-- Verifica si hay servidor disponible (`Estacion::hayServidorDisponible`). -/
def Estacion.hayServidorDisponible (st : Estacion) : Bool :=
  st.servidorOcupado.any (fun ocupado => !ocupado)

/-- Actualiza el acumulador de tiempo ocupado
(`Estacion::actualizarTiempoOcupado`). -/
def Estacion.actualizarTiempoOcupado (st : Estacion) (tiempoActual : ℚ) : Estacion :=
  let servidoresOcupados : ℕ := st.servidorOcupado.count true
  { st with
    tiempoTotalOcupado :=
      st.tiempoTotalOcupado + servidoresOcupados * (tiempoActual - st.tiempoUltimoCambio),
    tiempoUltimoCambio := tiempoActual }

/-- Inicia el servicio del siguiente cliente (`Estacion::iniciarServicio`).
Devuelve el id del cliente extraído, o `none` (el `-1` de C++) si la cola
está vacía o no hay servidor libre. -/
def Estacion.iniciarServicio (st : Estacion) (tiempoActual : ℚ) :
    Option ℕ × Estacion :=
  match st.colaEspera with
  | [] => (none, st)
  | idCliente :: resto =>
    match st.servidorOcupado.findIdx? (fun ocupado => !ocupado) with
    | none => (none, st)
    | some i =>
      let st' := { st with colaEspera := resto,
                           servidorOcupado := st.servidorOcupado.set i true }
      (some idCliente, st'.actualizarTiempoOcupado tiempoActual)

/-- Finaliza el servicio y libera un servidor (`Estacion::finalizarServicio`). -/
def Estacion.finalizarServicio (st : Estacion) (tiempoActual : ℚ) : Estacion :=
  match st.servidorOcupado.findIdx? (fun ocupado => ocupado) with
  | none => st
  | some i =>
    let st' := { st with servidorOcupado := st.servidorOcupado.set i false }
    let st'' := st'.actualizarTiempoOcupado tiempoActual
    { st'' with totalAtendidos := st''.totalAtendidos + 1 }

/-- Calcula la utilización (`Estacion::getUtilizacion`). -/
def Estacion.getUtilizacion (st : Estacion) (tiempoTotal : ℚ) : ℚ :=
  if tiempoTotal = 0 ∨ st.numServidores = 0 then 0
  else st.tiempoTotalOcupado / (st.numServidores * tiempoTotal)

/-- Verifica si la cola está vacía (`Estacion::estaVacia`). -/
def Estacion.estaVacia (st : Estacion) : Bool :=
  st.colaEspera.isEmpty

/-- Configuración de servidores por estación (`class ConfiguracionServidores`). -/
structure ConfiguracionServidores where
  cajas : ℕ := 0
  refrescos : ℕ := 0
  freidora : ℕ := 0
  postres : ℕ := 0
  pollo : ℕ := 0
  deriving DecidableEq, Repr

/-- Resultado estadístico de la simulación (`class Estadisticas`). -/
structure Estadisticas where
  tiempoEsperaPromedio : ℚ := 0
  varianzaTiempoEspera : ℚ := 0
  utilizacionEstaciones : List ℚ := []
  totalClientes : ℕ := 0
  tiempoSistemaPromedio : ℚ := 0
  deriving DecidableEq, Repr

/-- Estado del motor de simulación (`class SimulacionColas`).  El campo
`probabilidadesEstaciones` refleja el miembro `const` inicializado con
`{1.0, 0.9, 0.7, 0.25, 0.3}`. -/
structure SimulacionColas where
  colaEventos : List Evento := []
  estaciones : List Estacion := []
  clientes : List Cliente := []
  clientesCompletados : List Cliente := []
  rng : GeneradorAleatorio
  tiempoActual : ℚ := 0
  duracionSimulacion : ℚ := 480
  tiempoFinalReal : ℚ := 0
  siguienteIdCliente : ℕ := 0
  tasaLlegada : ℚ := 3
  probabilidadesEstaciones : List ℚ := [1, 9/10, 7/10, 1/4, 3/10]

/-- Constructor del simulador (`SimulacionColas(duracion, lambda, semilla)`);
la semilla se sustituye por el flujo del generador. -/
def mkSimulacion (duracion lambda : ℚ) (g : GeneradorAleatorio) : SimulacionColas :=
  { rng := g, tiempoActual := 0, duracionSimulacion := duracion,
    tiempoFinalReal := 0, siguienteIdCliente := 0, tasaLlegada := lambda }

/-- Inicializa el sistema (`SimulacionColas::inicializar`). -/
def inicializar (s : SimulacionColas) (config : ConfiguracionServidores) :
    SimulacionColas :=
  let s := { s with
    estaciones := [mkEstacion CAJAS config.cajas,
                   mkEstacion REFRESCOS config.refrescos,
                   mkEstacion FREIDORA config.freidora,
                   mkEstacion POSTRES config.postres,
                   mkEstacion POLLO config.pollo],
    clientes := [], clientesCompletados := [],
    tiempoActual := 0, siguienteIdCliente := 0,
    colaEventos := [] }
  let (primeraLlegada, g') := s.rng.tiempoEntreLlegadas s.tasaLlegada
  { s with rng := g',
           colaEventos := [⟨primeraLlegada, TipoEvento.llegada, none, none⟩] }

/-- Obtiene el tiempo de servicio según la estación
(`SimulacionColas::getTiempoServicio`). -/
def getTiempoServicio (g : GeneradorAleatorio) (idEstacion : ℕ) :
    ℚ × GeneradorAleatorio :=
  if idEstacion = CAJAS then g.tiempoServicioExp (2/5)
  else if idEstacion = REFRESCOS then g.tiempoServicioExp (1333/1000)
  else if idEstacion = FREIDORA then
    let (v, g') := g.tiempoServicioNormDisc 3 (1/2)
    ((v : ℚ), g')
  else if idEstacion = POSTRES then
    let (v, g') := g.tiempoServicioBinom 5 (3/5)
    ((v : ℚ), g')
  else if idEstacion = POLLO then
    let (v, g') := g.tiempoServicioGeom (1/10)
    ((v : ℚ), g')
  else (1, g)

/-- Inicia servicio para el siguiente cliente en la cola de una estación
(`SimulacionColas::iniciarServicio`). -/
def iniciarServicio (idEstacion : ℕ) (s : SimulacionColas) : SimulacionColas :=
  let st := s.estaciones.getD idEstacion default
  let (res, st') := st.iniciarServicio s.tiempoActual
  let s1 := { s with estaciones := s.estaciones.set idEstacion st' }
  match res with
  | none => s1
  | some idCliente =>
    let c := s1.clientes.getD idCliente default
    let tiempoEspera := s1.tiempoActual - c.tiempoEntradaCola
    let c := { c with tiempoEsperaTotal := c.tiempoEsperaTotal + tiempoEspera }
    let (tiempoServicio, g') := getTiempoServicio s1.rng idEstacion
    let c := { c with tiempoServicioTotal := c.tiempoServicioTotal + tiempoServicio }
    let tiempoFin := s1.tiempoActual + tiempoServicio
    { s1 with
      clientes := s1.clientes.set idCliente c,
      rng := g',
      colaEventos := s1.colaEventos ++
        [⟨tiempoFin, TipoEvento.finServicio, some idCliente, some idEstacion⟩] }

/-- Procesa un evento de llegada (`SimulacionColas::procesarLlegada`). -/
def procesarLlegada (s : SimulacionColas) : SimulacionColas :=
  let (nOrd, g1) := s.rng.numeroOrdenes
  let (v1, g2) := g1.debeVisitar (s.probabilidadesEstaciones.getD REFRESCOS 0)
  let (v2, g3) := g2.debeVisitar (s.probabilidadesEstaciones.getD FREIDORA 0)
  let (v3, g4) := g3.debeVisitar (s.probabilidadesEstaciones.getD POSTRES 0)
  let (v4, g5) := g4.debeVisitar (s.probabilidadesEstaciones.getD POLLO 0)
  let ruta : List ℕ :=
    [CAJAS] ++ (if v1 then [REFRESCOS] else []) ++ (if v2 then [FREIDORA] else [])
      ++ (if v3 then [POSTRES] else []) ++ (if v4 then [POLLO] else [])
  let c : Cliente :=
    { id := s.siguienteIdCliente, tiempoLlegada := s.tiempoActual,
      numOrdenes := nOrd, indiceEstacionActual := 0,
      tiempoEntradaCola := s.tiempoActual, estaciones := ruta }
  let s1 := { s with siguienteIdCliente := s.siguienteIdCliente + 1,
                     clientes := s.clientes ++ [c], rng := g5 }
  let stCajas := (s1.estaciones.getD CAJAS default).agregarCliente c.id s1.tiempoActual
  let s2 := { s1 with estaciones := s1.estaciones.set CAJAS stCajas }
  let s3 := if (s2.estaciones.getD CAJAS default).hayServidorDisponible then
              iniciarServicio CAJAS s2
            else s2
  let (gap, g6) := s3.rng.tiempoEntreLlegadas s3.tasaLlegada
  let siguienteLlegada := s3.tiempoActual + gap
  let s4 := { s3 with rng := g6 }
  if siguienteLlegada < s4.duracionSimulacion then
    { s4 with colaEventos := s4.colaEventos ++
        [⟨siguienteLlegada, TipoEvento.llegada, none, none⟩] }
  else s4

/-- Procesa un evento de fin de servicio
(`SimulacionColas::procesarFinServicio`). -/
def procesarFinServicio (e : Evento) (s : SimulacionColas) : SimulacionColas :=
  let idEstacion := e.idEstacion.getD 0
  let idCliente := e.idCliente.getD 0
  let stFin := (s.estaciones.getD idEstacion default).finalizarServicio s.tiempoActual
  let s1 := { s with estaciones := s.estaciones.set idEstacion stFin }
  let c := s1.clientes.getD idCliente default
  let c := { c with indiceEstacionActual := c.indiceEstacionActual + 1 }
  let s2 := { s1 with clientes := s1.clientes.set idCliente c }
  let s3 :=
    if c.indiceEstacionActual < c.estaciones.length then
      let siguienteEstacion := c.estaciones.getD c.indiceEstacionActual 0
      let c2 := { c with tiempoEntradaCola := s2.tiempoActual }
      let s2a := { s2 with clientes := s2.clientes.set idCliente c2 }
      let stSig := (s2a.estaciones.getD siguienteEstacion default).agregarCliente
        c2.id s2a.tiempoActual
      let s2b := { s2a with estaciones := s2a.estaciones.set siguienteEstacion stSig }
      if (s2b.estaciones.getD siguienteEstacion default).hayServidorDisponible then
        iniciarServicio siguienteEstacion s2b
      else s2b
    else
      { s2 with clientesCompletados := s2.clientesCompletados ++ [c] }
  if !(s3.estaciones.getD idEstacion default).estaVacia &&
      (s3.estaciones.getD idEstacion default).hayServidorDisponible then
    iniciarServicio idEstacion s3
  else s3

/-- Extracción determinista del evento de tiempo mínimo del `priority_queue`
(min-heap `greater<Evento>`); se elige el mínimo más a la izquierda. -/
def popMin : List Evento → Option (Evento × List Evento)
  | [] => none
  | e :: es =>
    match popMin es with
    | none => some (e, [])
    | some (m, resto) =>
      if e.tiempo ≤ m.tiempo then some (e, es) else some (m, e :: resto)

/-- Avanza el reloj al tiempo del evento extraído y elimina el evento de la
cola (las dos primeras líneas del cuerpo del bucle de `ejecutar`). -/
def avanza (s : SimulacionColas) (e : Evento) (resto : List Evento) :
    SimulacionColas :=
  { s with colaEventos := resto, tiempoActual := e.tiempo }

/-- Una iteración del bucle principal de `SimulacionColas::ejecutar`. -/
def paso (s : SimulacionColas) : SimulacionColas :=
  match popMin s.colaEventos with
  | none => s
  | some (e, resto) =>
    let s' := avanza s e resto
    match e.tipo with
    | TipoEvento.llegada =>
      if s'.tiempoActual < s'.duracionSimulacion then procesarLlegada s' else s'
    | TipoEvento.finServicio => procesarFinServicio e s'

/-- El bucle `while (!colaEventos.empty())` de `ejecutar`, con combustible. -/
def ejecutarAux : ℕ → SimulacionColas → SimulacionColas
  | 0, s => s
  | n + 1, s => if s.colaEventos = [] then s else ejecutarAux n (paso s)

/-- Ejecuta la simulación (`SimulacionColas::ejecutar`): drena la cola de
eventos y guarda el tiempo real de finalización. -/
def ejecutar (fuel : ℕ) (s : SimulacionColas) : SimulacionColas :=
  let s' := ejecutarAux fuel s
  { s' with tiempoFinalReal := s'.tiempoActual }

/-- Calcula las estadísticas (`SimulacionColas::getEstadisticas`). -/
def getEstadisticas (s : SimulacionColas) : Estadisticas :=
  let totalClientes := s.clientesCompletados.length
  if totalClientes = 0 then
    { totalClientes := 0, tiempoEsperaPromedio := 0, varianzaTiempoEspera := 0,
      tiempoSistemaPromedio := 0,
      utilizacionEstaciones := List.replicate NUM_EST 0 }
  else
    let sumaEspera := s.clientesCompletados.foldl
      (fun acc c => if c.estaciones.length ≤ c.indiceEstacionActual then
          acc + c.tiempoEsperaTotal else acc) (0 : ℚ)
    let sumaSistema := s.clientesCompletados.foldl
      (fun acc c => if c.estaciones.length ≤ c.indiceEstacionActual then
          acc + c.getTiempoTotal else acc) (0 : ℚ)
    let tiempoEsperaPromedio := sumaEspera / totalClientes
    let tiempoSistemaPromedio := sumaSistema / totalClientes
    let sumaDiferenciasCuadradas := s.clientesCompletados.foldl
      (fun acc c => if c.estaciones.length ≤ c.indiceEstacionActual then
          acc + (c.tiempoEsperaTotal - tiempoEsperaPromedio) *
                (c.tiempoEsperaTotal - tiempoEsperaPromedio) else acc) (0 : ℚ)
    let varianzaTiempoEspera := sumaDiferenciasCuadradas / totalClientes
    let tiempoSimulacion :=
      if 0 < s.tiempoFinalReal then s.tiempoFinalReal else s.duracionSimulacion
    { totalClientes := totalClientes,
      tiempoEsperaPromedio := tiempoEsperaPromedio,
      tiempoSistemaPromedio := tiempoSistemaPromedio,
      varianzaTiempoEspera := varianzaTiempoEspera,
      utilizacionEstaciones := (List.range NUM_EST).map
        (fun i => (s.estaciones.getD i default).getUtilizacion tiempoSimulacion) }


/-!
Lemas auxiliares sobre listas.
-/

theorem getD_set_self {α : Type _} (l : List α) (i : ℕ) (a d : α)
    (h : i < l.length) : (l.set i a).getD i d = a := by
  simp [List.getD, List.getElem?_set_self', List.getElem?_eq_getElem h]

theorem getD_set_ne {α : Type _} (l : List α) {i j : ℕ} (a d : α)
    (h : i ≠ j) : (l.set i a).getD j d = l.getD j d := by
  simp [List.getD, List.getElem?_set_ne h]

theorem set_getD_self {α : Type _} :
    ∀ (l : List α) (i : ℕ) (d : α), i < l.length → l.set i (l.getD i d) = l
  | _ :: _, 0, _, _ => by simp [List.getD]
  | a :: l, i + 1, d, h => by
    simp only [List.getD_cons_succ, List.set_cons_succ, List.cons.injEq, true_and]
    exact set_getD_self l i d (by simpa using Nat.lt_of_succ_lt_succ h)

theorem sum_map_set {α M : Type _} [AddCommMonoid M] (f : α → M) :
    ∀ (l : List α) (i : ℕ) (a d : α), i < l.length →
      ((l.set i a).map f).sum + f (l.getD i d) = (l.map f).sum + f a
  | x :: l, 0, a, d, _ => by
    simp only [List.set_cons_zero, List.map_cons, List.sum_cons, List.getD_cons_zero]
    abel
  | x :: l, i + 1, a, d, h => by
    simp only [List.set_cons_succ, List.map_cons, List.sum_cons, List.getD_cons_succ]
    have ih := sum_map_set f l i a d (by simpa using Nat.lt_of_succ_lt_succ h)
    rw [add_assoc, ih, add_assoc]

theorem flatten_map_set {α β : Type _} (f : α → List β) :
    ∀ (l : List α) (i : ℕ) (a d : α), i < l.length →
      ∃ pre post, (l.map f).flatten = pre ++ (f (l.getD i d) ++ post) ∧
        ((l.set i a).map f).flatten = pre ++ (f a ++ post)
  | x :: l, 0, a, d, _ => ⟨[], (l.map f).flatten, by simp [List.getD]⟩
  | x :: l, i + 1, a, d, h => by
    obtain ⟨pre, post, h1, h2⟩ :=
      flatten_map_set f l i a d (by simpa using Nat.lt_of_succ_lt_succ h)
    refine ⟨f x ++ pre, post, ?_, ?_⟩
    · simp only [List.getD_cons_succ, List.map_cons, List.flatten_cons, h1,
        List.append_assoc]
    · simp only [List.set_cons_succ, List.map_cons, List.flatten_cons, h2,
        List.append_assoc]

/-!
Lemas sobre la extracción del mínimo de la cola de eventos.
-/

theorem popMin_nil : popMin [] = none := rfl

theorem popMin_none : ∀ (l : List Evento), popMin l = none ↔ l = []
  | [] => by simp [popMin]
  | e :: es => by
    constructor
    · intro h
      cases hx : popMin es with
      | none => simp only [popMin, hx] at h; cases h
      | some p =>
        obtain ⟨m, r⟩ := p
        simp only [popMin, hx] at h
        by_cases hle : e.tiempo ≤ m.tiempo
        · rw [if_pos hle] at h; cases h
        · rw [if_neg hle] at h; cases h
    · intro h; exact absurd h (List.cons_ne_nil e es)

theorem popMin_perm : ∀ (l : List Evento) (e : Evento) (r : List Evento),
    popMin l = some (e, r) → l.Perm (e :: r)
  | [], _, _, h => by simp [popMin] at h
  | x :: xs, e, r, h => by
    cases hx : popMin xs with
    | none =>
      simp only [popMin, hx, Option.some.injEq, Prod.mk.injEq] at h
      obtain ⟨he, hr⟩ := h
      subst he; subst hr
      rw [(popMin_none xs).mp hx]
    | some p =>
      obtain ⟨m, resto⟩ := p
      simp only [popMin, hx] at h
      have ih := popMin_perm xs m resto hx
      by_cases hle : x.tiempo ≤ m.tiempo
      · rw [if_pos hle] at h
        simp only [Option.some.injEq, Prod.mk.injEq] at h
        obtain ⟨he, hr⟩ := h
        subst he; subst hr
        exact List.Perm.refl _
      · rw [if_neg hle] at h
        simp only [Option.some.injEq, Prod.mk.injEq] at h
        obtain ⟨he, hr⟩ := h
        subst he; subst hr
        exact ((ih.cons x).trans (List.Perm.swap m x resto))

theorem popMin_le : ∀ (l : List Evento) (e : Evento) (r : List Evento),
    popMin l = some (e, r) → ∀ x ∈ l, e.tiempo ≤ x.tiempo
  | [], _, _, h => by simp [popMin] at h
  | x :: xs, e, r, h => by
    cases hx : popMin xs with
    | none =>
      simp only [popMin, hx, Option.some.injEq, Prod.mk.injEq] at h
      obtain ⟨he, _⟩ := h
      subst he
      intro y hy
      rcases List.mem_cons.mp hy with hy | hy
      · rw [hy]
      · rw [(popMin_none xs).mp hx] at hy; cases hy
    | some p =>
      obtain ⟨m, resto⟩ := p
      simp only [popMin, hx] at h
      have ih := popMin_le xs m resto hx
      by_cases hle : x.tiempo ≤ m.tiempo
      · rw [if_pos hle] at h
        simp only [Option.some.injEq, Prod.mk.injEq] at h
        obtain ⟨he, _⟩ := h
        subst he
        intro y hy
        rcases List.mem_cons.mp hy with hy | hy
        · rw [hy]
        · exact le_trans hle (ih y hy)
      · rw [if_neg hle] at h
        simp only [Option.some.injEq, Prod.mk.injEq] at h
        obtain ⟨he, _⟩ := h
        subst he
        intro y hy
        rcases List.mem_cons.mp hy with hy | hy
        · rw [hy]; exact le_of_not_le hle
        · exact ih y hy

theorem popMin_mem {l : List Evento} {e : Evento} {r : List Evento}
    (h : popMin l = some (e, r)) : e ∈ l :=
  (popMin_perm l e r h).symm.mem_iff.mp (List.mem_cons_self e r)

theorem getD_append_left {α : Type _} (l l' : List α) (i : ℕ) (d : α)
    (h : i < l.length) : (l ++ l').getD i d = l.getD i d := by
  simp [List.getD, List.getElem?_append, h]

theorem getD_mem {α : Type _} (l : List α) (i : ℕ) (d : α)
    (h : i < l.length) : l.getD i d ∈ l := by
  simp [List.getD, List.getElem?_eq_getElem h]

theorem getD_append_self {α : Type _} (l : List α) (a d : α) :
    (l ++ [a]).getD l.length d = a := by
  induction l with
  | nil => rfl
  | cons x xs ih => simpa [List.getD_cons_succ] using ih

theorem append_singleton_perm {α : Type _} (l : List α) (a : α) :
    (l ++ [a]).Perm (a :: l) := by
  simpa using @List.perm_middle α a l []

theorem filterMap_append_some {α β : Type _} (f : α → Option β) (l : List α)
    (a : α) (b : β) (h : f a = some b) :
    (l ++ [a]).filterMap f = l.filterMap f ++ [b] := by
  simp [List.filterMap_append, List.filterMap, h]

theorem filterMap_append_none {α β : Type _} (f : α → Option β) (l : List α)
    (a : α) (h : f a = none) :
    (l ++ [a]).filterMap f = l.filterMap f := by
  simp [List.filterMap_append, List.filterMap, h]

/-!
Cantidades observables del estado: identificadores de clientes actualmente
en servicio (referenciados por eventos de fin de servicio pendientes) o en
alguna cola de espera, y las cantidades usadas como medida de terminación.
-/

/-- Identificador de cliente transportado por un evento de fin de servicio. -/
def finId (e : Evento) : Option ℕ :=
  if e.tipo = TipoEvento.finServicio then e.idCliente else none

/-- Clientes referenciados por eventos de fin de servicio pendientes. -/
def idsEnServicio (s : SimulacionColas) : List ℕ :=
  s.colaEventos.filterMap finId

/-- Clientes que esperan en alguna cola de estación. -/
def idsEnColas (s : SimulacionColas) : List ℕ :=
  (s.estaciones.map (fun st => st.colaEspera)).flatten

/-- Todos los clientes actualmente en tránsito (en servicio o en cola). -/
def ocupados (s : SimulacionColas) : List ℕ :=
  idsEnServicio s ++ idsEnColas s

/-- Estaciones que le quedan por visitar a un cliente. -/
def faltantes (c : Cliente) : ℕ :=
  c.estaciones.length - c.indiceEstacionActual

/-- Suma de estaciones pendientes sobre todos los clientes creados. -/
def cargaClientes (s : SimulacionColas) : ℕ :=
  (s.clientes.map faltantes).sum

/-- Cota superior del número de llegadas futuras que un evento puede generar,
cuando cada valor del flujo es al menos delta. -/
def presupuestoEvento (delta H : ℚ) (e : Evento) : ℕ :=
  if e.tipo = TipoEvento.llegada then (⌈(H - e.tiempo) / delta⌉).toNat else 0

/-- Presupuesto de llegadas de toda la cola de eventos. -/
def presupuesto (delta : ℚ) (s : SimulacionColas) : ℕ :=
  (s.colaEventos.map (presupuestoEvento delta s.duracionSimulacion)).sum

/-- Medida de terminación del bucle de eventos. -/
def medida (delta : ℚ) (s : SimulacionColas) : ℕ :=
  12 * presupuesto delta s + 2 * cargaClientes s + s.colaEventos.length

/-!
Invariante de los estados alcanzables del motor.
-/

/-- El flujo del generador está acotado inferiormente por delta. -/
def FlujoAcotado (delta : ℚ) (g : GeneradorAleatorio) : Prop :=
  ∀ n, delta ≤ g.f n

/-- Un identificador en tránsito apunta a un cliente válido cuya ruta aún no
ha terminado. -/
def clienteOk (s : SimulacionColas) (i : ℕ) : Prop :=
  i < s.clientes.length ∧
  (s.clientes.getD i default).indiceEstacionActual <
    (s.clientes.getD i default).estaciones.length

/-- Un evento pendiente no está en el pasado y, si es fin de servicio, lleva
identificadores de cliente y estación. -/
def eventoOk (t : ℚ) (e : Evento) : Prop :=
  t ≤ e.tiempo ∧
  (e.tipo = TipoEvento.finServicio → e.idCliente.isSome ∧ e.idEstacion.isSome)

/-- Contabilidad interna bien formada de una estación en el instante t. -/
def estacionOk (t : ℚ) (st : Estacion) : Prop :=
  st.servidorOcupado.length = st.numServidores ∧
  st.tiempoUltimoCambio ≤ t ∧ 0 ≤ st.tiempoUltimoCambio ∧
  0 ≤ st.tiempoTotalOcupado ∧
  st.tiempoTotalOcupado ≤ (st.numServidores : ℚ) * st.tiempoUltimoCambio

/-- Invariante de alcanzabilidad del motor de simulación. -/
def Inv (s : SimulacionColas) : Prop :=
  s.estaciones.length = NUM_EST ∧
  s.siguienteIdCliente = s.clientes.length ∧
  0 ≤ s.tiempoActual ∧
  (∀ e ∈ s.colaEventos, eventoOk s.tiempoActual e) ∧
  (ocupados s).Nodup ∧
  (∀ i ∈ ocupados s, clienteOk s i) ∧
  (∀ st ∈ s.estaciones, estacionOk s.tiempoActual st) ∧
  (∀ c ∈ s.clientes, c.indiceEstacionActual ≤ c.estaciones.length) ∧
  (∀ c ∈ s.clientes, c.tiempoLlegada < s.duracionSimulacion) ∧
  (∀ c ∈ s.clientes, ∀ k ∈ c.estaciones, k < NUM_EST) ∧
  (∀ c ∈ s.clientesCompletados, c.indiceEstacionActual = c.estaciones.length) ∧
  (∀ i, i < s.clientes.length → (s.clientes.getD i default).id = i)

/-!
Lemas de efecto de las operaciones de estación.
-/

theorem estacionOk_mono {t t' : ℚ} {st : Estacion} (h : estacionOk t st)
    (ht : t ≤ t') : estacionOk t' st :=
  ⟨h.1, le_trans h.2.1 ht, h.2.2.1, h.2.2.2.1, h.2.2.2.2⟩

theorem estacionOk_actualizar {u : ℚ} {st : Estacion} (h : estacionOk u st) :
    estacionOk u (st.actualizarTiempoOcupado u) := by
  obtain ⟨hlen, hle, h0, hacc0, haccb⟩ := h
  have hcount : (st.servidorOcupado.count true : ℚ) ≤ (st.numServidores : ℚ) := by
    have := List.count_le_length true st.servidorOcupado
    exact_mod_cast le_trans this (le_of_eq hlen)
  have hgap : 0 ≤ u - st.tiempoUltimoCambio := by linarith
  refine ⟨hlen, le_refl u, le_trans h0 hle, ?_, ?_⟩
  · have : 0 ≤ (st.servidorOcupado.count true : ℚ) * (u - st.tiempoUltimoCambio) :=
      mul_nonneg (by positivity) hgap
    simp only [Estacion.actualizarTiempoOcupado]
    linarith
  · simp only [Estacion.actualizarTiempoOcupado]
    have hmul : (st.servidorOcupado.count true : ℚ) * (u - st.tiempoUltimoCambio) ≤
        (st.numServidores : ℚ) * (u - st.tiempoUltimoCambio) :=
      mul_le_mul_of_nonneg_right hcount hgap
    have : (st.numServidores : ℚ) * st.tiempoUltimoCambio +
        (st.numServidores : ℚ) * (u - st.tiempoUltimoCambio) =
        (st.numServidores : ℚ) * u := by ring
    linarith

theorem actualizar_acumulador (st : Estacion) (u : ℚ) :
    (st.actualizarTiempoOcupado u).tiempoTotalOcupado =
      st.tiempoTotalOcupado +
        (st.servidorOcupado.count true : ℚ) * (u - st.tiempoUltimoCambio) ∧
    (st.actualizarTiempoOcupado u).tiempoUltimoCambio = u := by
  constructor <;> rfl

theorem actualizar_no_decrece {u : ℚ} {st : Estacion}
    (h : st.tiempoUltimoCambio ≤ u) :
    st.tiempoTotalOcupado ≤ (st.actualizarTiempoOcupado u).tiempoTotalOcupado := by
  have : 0 ≤ (st.servidorOcupado.count true : ℚ) * (u - st.tiempoUltimoCambio) :=
    mul_nonneg (by positivity) (by linarith)
  simp only [Estacion.actualizarTiempoOcupado]
  linarith

theorem estacionOk_cambia {t : ℚ} {st : Estacion} (h : estacionOk t st)
    (cola : List ℕ) (j : ℕ) (b : Bool) :
    estacionOk t { st with colaEspera := cola, servidorOcupado := st.servidorOcupado.set j b } := by
  obtain ⟨a1, a2, a3, a4, a5⟩ := h
  exact ⟨by simpa using a1, a2, a3, a4, a5⟩

theorem estacionOk_setServidor {t : ℚ} {st : Estacion} (h : estacionOk t st)
    (j : ℕ) (b : Bool) :
    estacionOk t { st with servidorOcupado := st.servidorOcupado.set j b } := by
  obtain ⟨hlen, hle, h0, hacc0, haccb⟩ := h
  exact ⟨by simpa using hlen, hle, h0, hacc0, haccb⟩

theorem estacionOk_finalizar {u : ℚ} {st : Estacion} (h : estacionOk u st) :
    estacionOk u (st.finalizarServicio u) := by
  unfold Estacion.finalizarServicio
  cases hf : st.servidorOcupado.findIdx? (fun ocupado => ocupado) with
  | none => exact h
  | some j =>
    have h1 := estacionOk_setServidor h j false
    have h2 := estacionOk_actualizar h1
    exact ⟨h2.1, h2.2.1, h2.2.2.1, h2.2.2.2.1, h2.2.2.2.2⟩

theorem finalizar_cola (st : Estacion) (u : ℚ) :
    (st.finalizarServicio u).colaEspera = st.colaEspera := by
  unfold Estacion.finalizarServicio
  cases hf : st.servidorOcupado.findIdx? (fun ocupado => ocupado) <;> rfl

theorem finalizar_num (st : Estacion) (u : ℚ) :
    (st.finalizarServicio u).numServidores = st.numServidores := by
  unfold Estacion.finalizarServicio
  cases hf : st.servidorOcupado.findIdx? (fun ocupado => ocupado) <;> rfl

theorem Estacion.iniciarServicio_spec (st : Estacion) (t : ℚ) :
    st.iniciarServicio t = (none, st) ∨
    ∃ idC resto j, st.colaEspera = idC :: resto ∧
      st.servidorOcupado.findIdx? (fun ocupado => !ocupado) = some j ∧
      st.iniciarServicio t =
        (some idC, Estacion.actualizarTiempoOcupado
          { st with colaEspera := resto,
                    servidorOcupado := st.servidorOcupado.set j true } t) := by
  cases hq : st.colaEspera with
  | nil => left; simp [Estacion.iniciarServicio, hq]
  | cons idC resto =>
    cases hf : st.servidorOcupado.findIdx? (fun ocupado => !ocupado) with
    | none => left; simp [Estacion.iniciarServicio, hq, hf]
    | some j =>
      right
      refine ⟨idC, resto, j, rfl, rfl, ?_⟩
      simp [Estacion.iniciarServicio, hq, hf]

/-!
Caracterización explícita de `iniciarServicio` a nivel del simulador.
-/

/-- Resultado de `iniciarServicio` cuando efectivamente arranca un servicio:
el primer cliente de la cola pasa al servidor libre j, se le abona la espera,
se consume un tiempo de servicio y se programa el fin de servicio. -/
def sirve (idE idC : ℕ) (resto : List ℕ) (j : ℕ) (s : SimulacionColas) :
    SimulacionColas :=
  let st := s.estaciones.getD idE default
  let stN := Estacion.actualizarTiempoOcupado
    { st with colaEspera := resto, servidorOcupado := st.servidorOcupado.set j true }
    s.tiempoActual
  let c := s.clientes.getD idC default
  let dur := (getTiempoServicio s.rng idE).1
  let cN := { c with
    tiempoEsperaTotal := c.tiempoEsperaTotal + (s.tiempoActual - c.tiempoEntradaCola),
    tiempoServicioTotal := c.tiempoServicioTotal + dur }
  { s with
    estaciones := s.estaciones.set idE stN,
    clientes := s.clientes.set idC cN,
    rng := (getTiempoServicio s.rng idE).2,
    colaEventos := s.colaEventos ++
      [⟨s.tiempoActual + dur, TipoEvento.finServicio, some idC, some idE⟩] }

theorem iniciar_spec (idE : ℕ) (s : SimulacionColas) :
    iniciarServicio idE s = s ∨
    ∃ idC resto j,
      (s.estaciones.getD idE default).colaEspera = idC :: resto ∧
      (s.estaciones.getD idE default).servidorOcupado.findIdx?
        (fun ocupado => !ocupado) = some j ∧
      iniciarServicio idE s = sirve idE idC resto j s := by
  rcases Estacion.iniciarServicio_spec (s.estaciones.getD idE default)
      s.tiempoActual with hcase | ⟨idC, resto, j, hq, hf, hcase⟩
  · left
    unfold iniciarServicio
    simp only [hcase]
    by_cases hlen : idE < s.estaciones.length
    · rw [set_getD_self s.estaciones idE default hlen]
    · rw [List.set_eq_of_length_le (le_of_not_lt hlen)]
  · right
    refine ⟨idC, resto, j, hq, hf, ?_⟩
    unfold iniciarServicio
    simp only [hcase]
    rfl

/-!
Propiedades de `getTiempoServicio` y de `sirve`.
-/

theorem getTiempoServicio_f (g : GeneradorAleatorio) (idE : ℕ) :
    (getTiempoServicio g idE).2.f = g.f := by
  unfold getTiempoServicio GeneradorAleatorio.tiempoServicioExp
    GeneradorAleatorio.tiempoServicioNormDisc GeneradorAleatorio.tiempoServicioBinom
    GeneradorAleatorio.tiempoServicioGeom GeneradorAleatorio.nextInt
    GeneradorAleatorio.next
  split_ifs <;> rfl

theorem getTiempoServicio_nonneg {delta : ℚ} (g : GeneradorAleatorio) (idE : ℕ)
    (hd : 0 ≤ delta) (hf : FlujoAcotado delta g) :
    0 ≤ (getTiempoServicio g idE).1 := by
  have hg : 0 ≤ g.f g.pos := le_trans hd (hf g.pos)
  have hfloor : (0 : ℤ) ≤ ⌊g.f g.pos⌋ := Int.floor_nonneg.mpr hg
  unfold getTiempoServicio GeneradorAleatorio.tiempoServicioExp
    GeneradorAleatorio.tiempoServicioNormDisc GeneradorAleatorio.tiempoServicioBinom
    GeneradorAleatorio.tiempoServicioGeom GeneradorAleatorio.nextInt
    GeneradorAleatorio.next
  split_ifs
  · exact hg
  · exact hg
  · have : (1 : ℤ) ≤ max 1 (round (g.f g.pos)) := le_max_left 1 _
    push_cast
    calc (0 : ℚ) ≤ 1 := zero_le_one
    _ ≤ _ := by exact_mod_cast this
  · have : (1 : ℤ) ≤ max 1 ⌊g.f g.pos⌋ := le_max_left 1 _
    push_cast
    calc (0 : ℚ) ≤ 1 := zero_le_one
    _ ≤ _ := by exact_mod_cast this
  · have : (0 : ℤ) ≤ ⌊g.f g.pos⌋ + 1 := by omega
    push_cast
    exact_mod_cast this
  · exact zero_le_one

theorem cola_ne_default {idE : ℕ} {s : SimulacionColas} {idC : ℕ}
    {resto : List ℕ}
    (hq : (s.estaciones.getD idE default).colaEspera = idC :: resto) :
    idE < s.estaciones.length := by
  by_contra h
  rw [List.getD_eq_default _ _ (le_of_not_lt h)] at hq
  cases hq

theorem sirve_campos (idE idC : ℕ) (resto : List ℕ) (j : ℕ)
    (s : SimulacionColas) :
    (sirve idE idC resto j s).tiempoActual = s.tiempoActual ∧
    (sirve idE idC resto j s).duracionSimulacion = s.duracionSimulacion ∧
    (sirve idE idC resto j s).tasaLlegada = s.tasaLlegada ∧
    (sirve idE idC resto j s).probabilidadesEstaciones =
      s.probabilidadesEstaciones ∧
    (sirve idE idC resto j s).clientesCompletados = s.clientesCompletados ∧
    (sirve idE idC resto j s).siguienteIdCliente = s.siguienteIdCliente ∧
    (sirve idE idC resto j s).rng.f = s.rng.f ∧
    (sirve idE idC resto j s).tiempoFinalReal = s.tiempoFinalReal ∧
    (sirve idE idC resto j s).clientes.length = s.clientes.length ∧
    (sirve idE idC resto j s).estaciones.length = s.estaciones.length := by
  refine ⟨rfl, rfl, rfl, rfl, rfl, rfl, ?_, rfl, by simp [sirve], by simp [sirve]⟩
  simp only [sirve]
  exact getTiempoServicio_f s.rng idE

theorem sirve_preserva_cliente (idE idC : ℕ) (resto : List ℕ) (j : ℕ)
    (s : SimulacionColas) (i : ℕ) :
    ((sirve idE idC resto j s).clientes.getD i default).indiceEstacionActual =
      (s.clientes.getD i default).indiceEstacionActual ∧
    ((sirve idE idC resto j s).clientes.getD i default).estaciones =
      (s.clientes.getD i default).estaciones ∧
    ((sirve idE idC resto j s).clientes.getD i default).tiempoLlegada =
      (s.clientes.getD i default).tiempoLlegada := by
  simp only [sirve]
  by_cases hic : idC < s.clientes.length
  · by_cases hii : idC = i
    · subst hii
      rw [getD_set_self _ _ _ _ hic]
      exact ⟨rfl, rfl, rfl⟩
    · rw [getD_set_ne _ _ _ hii]
      exact ⟨rfl, rfl, rfl⟩
  · rw [List.set_eq_of_length_le (le_of_not_lt hic)]
    exact ⟨rfl, rfl, rfl⟩

theorem sirve_clienteOk {idE idC : ℕ} {resto : List ℕ} {j : ℕ}
    {s : SimulacionColas} (i : ℕ) (h : clienteOk s i) :
    clienteOk (sirve idE idC resto j s) i := by
  obtain ⟨h1, h2⟩ := h
  obtain ⟨hi, he, _⟩ := sirve_preserva_cliente idE idC resto j s i
  refine ⟨?_, ?_⟩
  · have := (sirve_campos idE idC resto j s).2.2.2.2.2.2.2.2.1
    omega
  · rw [hi, he]; exact h2

theorem sirve_ocupados {idE idC : ℕ} {resto : List ℕ} {j : ℕ}
    {s : SimulacionColas}
    (hq : (s.estaciones.getD idE default).colaEspera = idC :: resto) :
    (ocupados (sirve idE idC resto j s)).Perm (ocupados s) := by
  have hlen := cola_ne_default hq
  set st0 := s.estaciones.getD idE default with hst0
  set stN := Estacion.actualizarTiempoOcupado { st0 with colaEspera := resto, servidorOcupado := st0.servidorOcupado.set j true } s.tiempoActual with hstN
  obtain ⟨pre, post, hold, hnew⟩ :=
    flatten_map_set (fun st => st.colaEspera) s.estaciones idE stN default hlen
  rw [← hst0, hq] at hold
  have hA : idsEnServicio (sirve idE idC resto j s) =
      idsEnServicio s ++ [idC] := by
    simp only [idsEnServicio, sirve]
    exact filterMap_append_some finId s.colaEventos _ idC (by simp [finId])
  have hB : idsEnColas (sirve idE idC resto j s) =
      pre ++ (resto ++ post) := by
    simp only [idsEnColas, sirve]
    exact hnew
  have hC : idsEnColas s = pre ++ (idC :: (resto ++ post)) := by
    simp only [idsEnColas]
    simpa using hold
  have p1 : (ocupados (sirve idE idC resto j s)).Perm
      (idC :: (idsEnServicio s ++ (pre ++ (resto ++ post)))) := by
    rw [ocupados, hA, hB]
    exact List.Perm.append_right _ (append_singleton_perm _ idC)
  have p2 : (ocupados s).Perm
      (idC :: (idsEnServicio s ++ (pre ++ (resto ++ post)))) := by
    rw [ocupados, hC]
    have i1 : (pre ++ (idC :: (resto ++ post))).Perm
        (idC :: (pre ++ (resto ++ post))) := List.perm_middle
    have i2 := List.Perm.append_left (idsEnServicio s) i1
    have i3 : (idsEnServicio s ++ (idC :: (pre ++ (resto ++ post)))).Perm
        (idC :: (idsEnServicio s ++ (pre ++ (resto ++ post)))) :=
      List.perm_middle
    exact i2.trans i3
  exact p1.trans p2.symm

theorem carga_set (s : SimulacionColas) (i : ℕ) (cN : Cliente)
    (h : faltantes cN = faltantes (s.clientes.getD i default)) :
    ((s.clientes.set i cN).map faltantes).sum = (s.clientes.map faltantes).sum := by
  by_cases hic : i < s.clientes.length
  · have hs := sum_map_set faltantes s.clientes i cN default hic
    rw [h] at hs
    omega
  · rw [List.set_eq_of_length_le (le_of_not_lt hic)]

theorem sirve_carga (idE idC : ℕ) (resto : List ℕ) (j : ℕ)
    (s : SimulacionColas) :
    cargaClientes (sirve idE idC resto j s) = cargaClientes s := by
  unfold cargaClientes
  simp only [sirve]
  exact carga_set s idC _ rfl

theorem sirve_presupuesto (delta : ℚ) (idE idC : ℕ) (resto : List ℕ) (j : ℕ)
    (s : SimulacionColas) :
    presupuesto delta (sirve idE idC resto j s) = presupuesto delta s := by
  unfold presupuesto
  simp only [sirve]
  simp [presupuestoEvento]

theorem sirve_eventosLen (idE idC : ℕ) (resto : List ℕ) (j : ℕ)
    (s : SimulacionColas) :
    (sirve idE idC resto j s).colaEventos.length = s.colaEventos.length + 1 := by
  simp [sirve]

theorem mem_set_strong {α : Type _} {l : List α} {i : ℕ} {b a : α}
    (h : a ∈ l.set i b) : a ∈ l ∨ (i < l.length ∧ a = b) := by
  by_cases hi : i < l.length
  · rcases List.mem_or_eq_of_mem_set h with h1 | h1
    · left; exact h1
    · right; exact ⟨hi, h1⟩
  · left; rwa [List.set_eq_of_length_le (le_of_not_lt hi)] at h

theorem getD_indice_le {s : SimulacionColas}
    (h8 : ∀ c ∈ s.clientes, c.indiceEstacionActual ≤ c.estaciones.length)
    (i : ℕ) :
    (s.clientes.getD i default).indiceEstacionActual ≤
      (s.clientes.getD i default).estaciones.length := by
  by_cases hi : i < s.clientes.length
  · exact h8 _ (getD_mem s.clientes i default hi)
  · rw [List.getD_eq_default _ _ (le_of_not_lt hi)]
    exact Nat.le_refl 0

theorem ids_set {s : SimulacionColas}
    (h12 : ∀ i, i < s.clientes.length → (s.clientes.getD i default).id = i)
    (k : ℕ) (cN : Cliente) (hid : cN.id = (s.clientes.getD k default).id) :
    ∀ i, i < (s.clientes.set k cN).length →
      ((s.clientes.set k cN).getD i default).id = i := by
  intro i hi
  rw [List.length_set] at hi
  by_cases hk : k = i
  · subst hk
    rw [getD_set_self _ _ _ _ hi, hid]
    exact h12 k hi
  · rw [getD_set_ne _ _ _ hk]
    exact h12 i hi

theorem ids_append {s : SimulacionColas}
    (h12 : ∀ i, i < s.clientes.length → (s.clientes.getD i default).id = i)
    (cN : Cliente) (hid : cN.id = s.clientes.length) :
    ∀ i, i < (s.clientes ++ [cN]).length →
      ((s.clientes ++ [cN]).getD i default).id = i := by
  intro i hi
  rw [List.length_append, List.length_singleton] at hi
  rcases Nat.lt_or_ge i s.clientes.length with hlt | hge
  · rw [getD_append_left _ _ _ _ hlt]
    exact h12 i hlt
  · have : i = s.clientes.length := by omega
    subst this
    rw [getD_append_self]
    exact hid

theorem sirve_inv {delta : ℚ} (idE idC : ℕ) (resto : List ℕ) (j : ℕ)
    (s : SimulacionColas) (hInv : Inv s)
    (hq : (s.estaciones.getD idE default).colaEspera = idC :: resto)
    (hd : 0 ≤ delta) (hf : FlujoAcotado delta s.rng) :
    Inv (sirve idE idC resto j s) := by
  obtain ⟨h1, h2, h3, h4, h5, h6, h7, h8, h9, h10, h11, h12⟩ := hInv
  have hlen := cola_ne_default hq
  have hperm := sirve_ocupados (j := j) hq
  have hdur : 0 ≤ (getTiempoServicio s.rng idE).1 :=
    getTiempoServicio_nonneg s.rng idE hd hf
  refine ⟨?_, ?_, ?_, ?_, ?_, ?_, ?_, ?_, ?_, ?_, ?_, ?_⟩
  · simpa [sirve] using h1
  · simpa [sirve] using h2
  · exact h3
  · intro e he
    simp only [sirve, List.mem_append, List.mem_singleton] at he
    rcases he with he | he
    · exact h4 e he
    · subst he
      constructor
      · show (sirve idE idC resto j s).tiempoActual ≤ s.tiempoActual + _
        have := (sirve_campos idE idC resto j s).1
        rw [this]
        linarith
      · intro _
        exact ⟨rfl, rfl⟩
  · exact (hperm.nodup_iff).mpr h5
  · intro i hi
    exact sirve_clienteOk i (h6 i (hperm.mem_iff.mp hi))
  · intro st hst
    simp only [sirve] at hst
    rcases mem_set_strong hst with hmem | ⟨_, heq⟩
    · exact h7 st hmem
    · subst heq
      have hOk0 := h7 _ (getD_mem s.estaciones idE default hlen)
      exact estacionOk_actualizar (estacionOk_cambia hOk0 resto j true)
  · intro c hc
    simp only [sirve] at hc
    rcases mem_set_strong hc with hmem | ⟨hlt, heq⟩
    · exact h8 c hmem
    · subst heq
      show (s.clientes.getD idC default).indiceEstacionActual ≤
        (s.clientes.getD idC default).estaciones.length
      exact h8 _ (getD_mem s.clientes idC default hlt)
  · intro c hc
    simp only [sirve] at hc
    rcases mem_set_strong hc with hmem | ⟨hlt, heq⟩
    · exact h9 c hmem
    · subst heq
      show (s.clientes.getD idC default).tiempoLlegada <
        (sirve idE idC resto j s).duracionSimulacion
      exact h9 _ (getD_mem s.clientes idC default hlt)
  · intro c hc
    simp only [sirve] at hc
    rcases mem_set_strong hc with hmem | ⟨hlt, heq⟩
    · exact h10 c hmem
    · subst heq
      show ∀ k ∈ (s.clientes.getD idC default).estaciones, k < NUM_EST
      exact h10 _ (getD_mem s.clientes idC default hlt)
  · intro c hc
    exact h11 c hc
  · exact ids_set h12 idC _ rfl

theorem flujo_de_f {delta : ℚ} {g g' : GeneradorAleatorio}
    (h : g'.f = g.f) (hf : FlujoAcotado delta g) : FlujoAcotado delta g' := by
  intro n; rw [h]; exact hf n

theorem iniciar_inv {delta : ℚ} (idE : ℕ) (s : SimulacionColas) (hInv : Inv s)
    (hd : 0 ≤ delta) (hf : FlujoAcotado delta s.rng) :
    Inv (iniciarServicio idE s) := by
  rcases iniciar_spec idE s with h | ⟨idC, resto, j, hq, hfj, h⟩
  · rwa [h]
  · rw [h]; exact sirve_inv idE idC resto j s hInv hq hd hf

theorem iniciar_campos (idE : ℕ) (s : SimulacionColas) :
    (iniciarServicio idE s).tiempoActual = s.tiempoActual ∧
    (iniciarServicio idE s).duracionSimulacion = s.duracionSimulacion ∧
    (iniciarServicio idE s).tasaLlegada = s.tasaLlegada ∧
    (iniciarServicio idE s).probabilidadesEstaciones = s.probabilidadesEstaciones ∧
    (iniciarServicio idE s).clientesCompletados = s.clientesCompletados ∧
    (iniciarServicio idE s).siguienteIdCliente = s.siguienteIdCliente ∧
    (iniciarServicio idE s).rng.f = s.rng.f ∧
    (iniciarServicio idE s).tiempoFinalReal = s.tiempoFinalReal ∧
    (iniciarServicio idE s).clientes.length = s.clientes.length ∧
    (iniciarServicio idE s).estaciones.length = s.estaciones.length := by
  rcases iniciar_spec idE s with h | ⟨idC, resto, j, hq, hfj, h⟩
  · rw [h]; exact ⟨rfl, rfl, rfl, rfl, rfl, rfl, rfl, rfl, rfl, rfl⟩
  · rw [h]; exact sirve_campos idE idC resto j s

theorem iniciar_carga (idE : ℕ) (s : SimulacionColas) :
    cargaClientes (iniciarServicio idE s) = cargaClientes s := by
  rcases iniciar_spec idE s with h | ⟨idC, resto, j, hq, hfj, h⟩
  · rw [h]
  · rw [h]; exact sirve_carga idE idC resto j s

theorem iniciar_presupuesto (delta : ℚ) (idE : ℕ) (s : SimulacionColas) :
    presupuesto delta (iniciarServicio idE s) = presupuesto delta s := by
  rcases iniciar_spec idE s with h | ⟨idC, resto, j, hq, hfj, h⟩
  · rw [h]
  · rw [h]; exact sirve_presupuesto delta idE idC resto j s

theorem iniciar_eventosLen (idE : ℕ) (s : SimulacionColas) :
    (iniciarServicio idE s).colaEventos.length ≤ s.colaEventos.length + 1 := by
  rcases iniciar_spec idE s with h | ⟨idC, resto, j, hq, hfj, h⟩
  · rw [h]; exact Nat.le_succ _
  · rw [h, sirve_eventosLen]

theorem iniciar_ocupados (idE : ℕ) (s : SimulacionColas) :
    (ocupados (iniciarServicio idE s)).Perm (ocupados s) := by
  rcases iniciar_spec idE s with h | ⟨idC, resto, j, hq, hfj, h⟩
  · rw [h]
  · rw [h]; exact sirve_ocupados (j := j) hq

/-!
Descomposición de `procesarLlegada` en dos mitades para las pruebas.
-/

/-- Primera mitad de `procesarLlegada`: creación del cliente, sorteo de la
ruta y puesta en cola en CAJAS. -/
def creaCliente (s : SimulacionColas) : SimulacionColas :=
  let (nOrd, g1) := s.rng.numeroOrdenes
  let (v1, g2) := g1.debeVisitar (s.probabilidadesEstaciones.getD REFRESCOS 0)
  let (v2, g3) := g2.debeVisitar (s.probabilidadesEstaciones.getD FREIDORA 0)
  let (v3, g4) := g3.debeVisitar (s.probabilidadesEstaciones.getD POSTRES 0)
  let (v4, g5) := g4.debeVisitar (s.probabilidadesEstaciones.getD POLLO 0)
  let ruta : List ℕ :=
    [CAJAS] ++ (if v1 then [REFRESCOS] else []) ++ (if v2 then [FREIDORA] else [])
      ++ (if v3 then [POSTRES] else []) ++ (if v4 then [POLLO] else [])
  let c : Cliente :=
    { id := s.siguienteIdCliente, tiempoLlegada := s.tiempoActual,
      numOrdenes := nOrd, indiceEstacionActual := 0,
      tiempoEntradaCola := s.tiempoActual, estaciones := ruta }
  let s1 := { s with siguienteIdCliente := s.siguienteIdCliente + 1,
                     clientes := s.clientes ++ [c], rng := g5 }
  let stCajas := (s1.estaciones.getD CAJAS default).agregarCliente c.id s1.tiempoActual
  { s1 with estaciones := s1.estaciones.set CAJAS stCajas }

/-- Última parte de `procesarLlegada`: sorteo del siguiente tiempo de llegada
y, si cae antes del horizonte, su inserción en la cola de eventos. -/
def programaLlegada (s : SimulacionColas) : SimulacionColas :=
  let (gap, g6) := s.rng.tiempoEntreLlegadas s.tasaLlegada
  let siguienteLlegada := s.tiempoActual + gap
  let s4 := { s with rng := g6 }
  if siguienteLlegada < s4.duracionSimulacion then
    { s4 with colaEventos := s4.colaEventos ++
        [⟨siguienteLlegada, TipoEvento.llegada, none, none⟩] }
  else s4

theorem procesarLlegada_eq (s : SimulacionColas) :
    procesarLlegada s =
      programaLlegada
        (if ((creaCliente s).estaciones.getD CAJAS default).hayServidorDisponible
         then iniciarServicio CAJAS (creaCliente s)
         else creaCliente s) := rfl

/-- Resultado del sorteo de Bernoulli para la estación opcional k dentro de
`procesarLlegada`: el uniforme leído en la posición pos + k del flujo. -/
def visita (s : SimulacionColas) (k : ℕ) : Bool :=
  decide (s.rng.f (s.rng.pos + k) < s.probabilidadesEstaciones.getD k 0)

/-- Ruta sorteada por `procesarLlegada` en función del flujo. -/
def rutaDe (s : SimulacionColas) : List ℕ :=
  [CAJAS] ++ (if visita s REFRESCOS then [REFRESCOS] else [])
    ++ (if visita s FREIDORA then [FREIDORA] else [])
    ++ (if visita s POSTRES then [POSTRES] else [])
    ++ (if visita s POLLO then [POLLO] else [])

/-- El cliente que `procesarLlegada` crea en el estado s. -/
def clienteNuevo (s : SimulacionColas) : Cliente :=
  { id := s.siguienteIdCliente, tiempoLlegada := s.tiempoActual,
    numOrdenes := max 1 ⌊s.rng.f s.rng.pos⌋, indiceEstacionActual := 0,
    tiempoEntradaCola := s.tiempoActual, estaciones := rutaDe s }

theorem creaCliente_spec (s : SimulacionColas) :
    creaCliente s =
      { s with siguienteIdCliente := s.siguienteIdCliente + 1,
               clientes := s.clientes ++ [clienteNuevo s],
               rng := ⟨s.rng.f, s.rng.pos + 5⟩,
               estaciones := s.estaciones.set CAJAS
                 ((s.estaciones.getD CAJAS default).agregarCliente
                   s.siguienteIdCliente s.tiempoActual) } := rfl

theorem ruta_cabeza (s : SimulacionColas) : ∃ resto, rutaDe s = CAJAS :: resto :=
  ⟨_, rfl⟩

theorem ruta_long (s : SimulacionColas) :
    1 ≤ (rutaDe s).length ∧ (rutaDe s).length ≤ 5 := by
  unfold rutaDe
  cases visita s REFRESCOS <;> cases visita s FREIDORA <;>
    cases visita s POSTRES <;> cases visita s POLLO <;> simp

theorem ruta_mem {s : SimulacionColas} {k : ℕ} (hk : k ∈ rutaDe s) :
    k < NUM_EST := by
  unfold rutaDe at hk
  simp only [List.mem_append, List.mem_singleton] at hk
  rcases hk with ((((hk | hk) | hk) | hk) | hk)
  · subst hk; decide
  · cases hv : visita s REFRESCOS <;> rw [hv] at hk <;> simp at hk
    subst hk; decide
  · cases hv : visita s FREIDORA <;> rw [hv] at hk <;> simp at hk
    subst hk; decide
  · cases hv : visita s POSTRES <;> rw [hv] at hk <;> simp at hk
    subst hk; decide
  · cases hv : visita s POLLO <;> rw [hv] at hk <;> simp at hk
    subst hk; decide

theorem ruta_mem_opcional (s : SimulacionColas) (k : ℕ) (h1 : 1 ≤ k)
    (h4 : k ≤ 4) : k ∈ rutaDe s ↔ visita s k = true := by
  unfold rutaDe
  simp only [REFRESCOS, FREIDORA, POSTRES, POLLO, CAJAS]
  interval_cases k <;>
    cases hv1 : visita s 1 <;> cases hv2 : visita s 2 <;>
    cases hv3 : visita s 3 <;> cases hv4 : visita s 4 <;>
    simp [hv1, hv2, hv3, hv4]

theorem estacionOk_agregar {t : ℚ} {st : Estacion} (h : estacionOk t st)
    (i : ℕ) (u : ℚ) : estacionOk t (st.agregarCliente i u) := by
  obtain ⟨a1, a2, a3, a4, a5⟩ := h
  exact ⟨a1, a2, a3, a4, a5⟩

theorem creaCliente_ocupados (s : SimulacionColas)
    (h1 : s.estaciones.length = NUM_EST) :
    (ocupados (creaCliente s)).Perm (s.siguienteIdCliente :: ocupados s) := by
  have h0 : CAJAS < s.estaciones.length := by rw [h1]; decide
  obtain ⟨pre, post, hold, hnew⟩ :=
    flatten_map_set (fun st => st.colaEspera) s.estaciones CAJAS
      ((s.estaciones.getD CAJAS default).agregarCliente
        s.siguienteIdCliente s.tiempoActual) default h0
  have hser : idsEnServicio (creaCliente s) = idsEnServicio s := by
    rw [creaCliente_spec]; rfl
  have hcol : idsEnColas (creaCliente s) =
      pre ++ (((s.estaciones.getD CAJAS default).colaEspera ++
        [s.siguienteIdCliente]) ++ post) := by
    rw [creaCliente_spec]
    exact hnew
  have hcolv : idsEnColas s =
      pre ++ ((s.estaciones.getD CAJAS default).colaEspera ++ post) := hold
  set q0 := (s.estaciones.getD CAJAS default).colaEspera
  set n := s.siguienteIdCliente
  have step2 : ((q0 ++ [n]) ++ post).Perm (n :: (q0 ++ post)) :=
    (append_singleton_perm q0 n).append_right post
  have step3 := List.Perm.append_left pre step2
  have step4 : (pre ++ (n :: (q0 ++ post))).Perm (n :: (pre ++ (q0 ++ post))) :=
    List.perm_middle
  have step5 := step3.trans step4
  have main1 : (ocupados (creaCliente s)).Perm
      (idsEnServicio s ++ (n :: (pre ++ (q0 ++ post)))) := by
    rw [ocupados, hser, hcol]
    exact List.Perm.append_left _ step5
  have main2 : (idsEnServicio s ++ (n :: (pre ++ (q0 ++ post)))).Perm
      (n :: (idsEnServicio s ++ (pre ++ (q0 ++ post)))) := List.perm_middle
  have main3 : ocupados s = idsEnServicio s ++ (pre ++ (q0 ++ post)) := by
    rw [ocupados, hcolv]
  rw [main3]
  exact main1.trans main2

theorem creaCliente_inv (s : SimulacionColas) (hInv : Inv s)
    (ht : s.tiempoActual < s.duracionSimulacion) : Inv (creaCliente s) := by
  obtain ⟨h1, h2, h3, h4, h5, h6, h7, h8, h9, h10, h11, h12⟩ := hInv
  have hperm := creaCliente_ocupados s h1
  have h0 : CAJAS < s.estaciones.length := by rw [h1]; decide
  have hnlen : s.siguienteIdCliente = s.clientes.length := h2
  refine ⟨?_, ?_, ?_, ?_, ?_, ?_, ?_, ?_, ?_, ?_, ?_, ?_⟩
  · rw [creaCliente_spec]; simpa using h1
  · rw [creaCliente_spec]; simp [h2]
  · exact h3
  · rw [creaCliente_spec]; exact h4
  · refine (hperm.nodup_iff).mpr ?_
    refine List.nodup_cons.mpr ⟨?_, h5⟩
    intro hmem
    have := (h6 _ hmem).1
    omega
  · intro i hi
    have hi2 := hperm.mem_iff.mp hi
    rw [creaCliente_spec]
    rcases List.mem_cons.mp hi2 with hie | hio
    · subst hie
      constructor
      · simp
        omega
      · rw [hnlen, getD_append_self]
        show 0 < (rutaDe s).length
        exact lt_of_lt_of_le Nat.zero_lt_one (ruta_long s).1
    · obtain ⟨ha, hb⟩ := h6 _ hio
      constructor
      · simp
        omega
      · rw [getD_append_left _ _ _ _ ha]
        exact hb
  · intro st hst
    rw [creaCliente_spec] at hst
    simp only at hst
    rcases mem_set_strong hst with hmem | ⟨_, heq⟩
    · exact h7 st hmem
    · subst heq
      exact estacionOk_agregar (h7 _ (getD_mem s.estaciones CAJAS default h0)) _ _
  · intro c hc
    rw [creaCliente_spec] at hc
    simp only [List.mem_append, List.mem_singleton] at hc
    rcases hc with hc | hc
    · exact h8 c hc
    · subst hc
      exact Nat.zero_le _
  · intro c hc
    rw [creaCliente_spec] at hc
    simp only [List.mem_append, List.mem_singleton] at hc
    rcases hc with hc | hc
    · exact h9 c hc
    · subst hc
      exact ht
  · intro c hc
    rw [creaCliente_spec] at hc
    simp only [List.mem_append, List.mem_singleton] at hc
    rcases hc with hc | hc
    · exact h10 c hc
    · subst hc
      intro k hk
      exact ruta_mem hk
  · intro c hc
    rw [creaCliente_spec] at hc
    exact h11 c hc
  · rw [creaCliente_spec]
    exact ids_append h12 _ h2

theorem creaCliente_carga (s : SimulacionColas) :
    cargaClientes (creaCliente s) = cargaClientes s + (rutaDe s).length := by
  rw [creaCliente_spec]
  unfold cargaClientes
  simp [faltantes, clienteNuevo]

theorem creaCliente_presupuesto (delta : ℚ) (s : SimulacionColas) :
    presupuesto delta (creaCliente s) = presupuesto delta s := rfl

theorem creaCliente_eventos (s : SimulacionColas) :
    (creaCliente s).colaEventos = s.colaEventos := rfl

theorem programaLlegada_spec (s : SimulacionColas) :
    programaLlegada s =
      (if s.tiempoActual + s.rng.f s.rng.pos < s.duracionSimulacion then
        { s with rng := ⟨s.rng.f, s.rng.pos + 1⟩,
                 colaEventos := s.colaEventos ++
                   [⟨s.tiempoActual + s.rng.f s.rng.pos,
                     TipoEvento.llegada, none, none⟩] }
       else { s with rng := ⟨s.rng.f, s.rng.pos + 1⟩ }) := rfl

theorem programaLlegada_inv {delta : ℚ} (s : SimulacionColas) (hInv : Inv s)
    (hd : 0 ≤ delta) (hf : FlujoAcotado delta s.rng) :
    Inv (programaLlegada s) := by
  obtain ⟨h1, h2, h3, h4, h5, h6, h7, h8, h9, h10, h11, h12⟩ := hInv
  have hocu : ocupados (programaLlegada s) = ocupados s := by
    rw [programaLlegada_spec]
    split_ifs
    · unfold ocupados idsEnServicio idsEnColas
      simp only
      rw [filterMap_append_none finId s.colaEventos _ (by simp [finId])]
    · rfl
  rw [programaLlegada_spec]
  split_ifs with hsi
  · refine ⟨h1, h2, h3, ?_, ?_, ?_, h7, h8, h9, h10, h11, ?_⟩
    · intro e he
      simp only [List.mem_append, List.mem_singleton] at he
      rcases he with he | he
      · exact h4 e he
      · subst he
        refine ⟨?_, ?_⟩
        · show s.tiempoActual ≤ s.tiempoActual + s.rng.f s.rng.pos
          have := le_trans hd (hf s.rng.pos)
          linarith
        · intro habs
          exact TipoEvento.noConfusion habs
    · rw [programaLlegada_spec] at hocu
      rw [if_pos hsi] at hocu
      rw [hocu]
      exact h5
    · intro i hi
      rw [programaLlegada_spec] at hocu
      rw [if_pos hsi] at hocu
      rw [hocu] at hi
      exact h6 i hi
    · exact h12
  · exact ⟨h1, h2, h3, h4, h5, h6, h7, h8, h9, h10, h11, h12⟩

theorem programaLlegada_carga (s : SimulacionColas) :
    cargaClientes (programaLlegada s) = cargaClientes s := by
  rw [programaLlegada_spec]
  split_ifs <;> rfl

theorem programaLlegada_len (s : SimulacionColas) :
    (programaLlegada s).colaEventos.length ≤ s.colaEventos.length + 1 := by
  rw [programaLlegada_spec]
  split_ifs <;> simp

theorem presupuesto_decrece {delta H t gap : ℚ} (hdelta : 0 < delta)
    (hgap : delta ≤ gap) (ht : t < H) :
    (⌈(H - (t + gap)) / delta⌉).toNat + 1 ≤ (⌈(H - t) / delta⌉).toNat := by
  have e1 : (H - t) / delta - 1 = (H - t - delta) / delta := by
    field_simp
  have hle : (H - (t + gap)) / delta ≤ (H - t) / delta - 1 := by
    rw [e1]
    exact (div_le_div_right hdelta).mpr (by linarith)
  have h2 : ⌈(H - (t + gap)) / delta⌉ ≤ ⌈(H - t) / delta - 1⌉ :=
    Int.ceil_le_ceil hle
  rw [Int.ceil_sub_one] at h2
  have h3 : (1 : ℤ) ≤ ⌈(H - t) / delta⌉ := by
    have : (0 : ℚ) < (H - t) / delta := div_pos (by linarith) hdelta
    exact Int.ceil_pos.mpr this
  omega

theorem presupuesto_pos {delta H t : ℚ} (hdelta : 0 < delta) (ht : t < H) :
    1 ≤ (⌈(H - t) / delta⌉).toNat := by
  have : (0 : ℚ) < (H - t) / delta := div_pos (by linarith) hdelta
  have h3 : (1 : ℤ) ≤ ⌈(H - t) / delta⌉ := Int.ceil_pos.mpr this
  omega

theorem programaLlegada_presupuesto {delta : ℚ} (s : SimulacionColas)
    (hdelta : 0 < delta) (hf : FlujoAcotado delta s.rng)
    (ht : s.tiempoActual < s.duracionSimulacion) :
    presupuesto delta (programaLlegada s) + 1 ≤ presupuesto delta s +
      (⌈(s.duracionSimulacion - s.tiempoActual) / delta⌉).toNat := by
  by_cases hsi : s.tiempoActual + s.rng.f s.rng.pos < s.duracionSimulacion
  · have hsum : presupuesto delta (programaLlegada s) =
        presupuesto delta s + (⌈(s.duracionSimulacion -
          (s.tiempoActual + s.rng.f s.rng.pos)) / delta⌉).toNat := by
      rw [programaLlegada_spec, if_pos hsi]
      simp [presupuesto, presupuestoEvento]
    rw [hsum]
    have := presupuesto_decrece hdelta (hf s.rng.pos) ht
    omega
  · have hsum : presupuesto delta (programaLlegada s) = presupuesto delta s := by
      rw [programaLlegada_spec, if_neg hsi]
      rfl
    rw [hsum]
    have := presupuesto_pos hdelta ht
    omega

theorem creaCliente_f (s : SimulacionColas) : (creaCliente s).rng.f = s.rng.f := by
  rw [creaCliente_spec]

theorem programaLlegada_f (s : SimulacionColas) :
    (programaLlegada s).rng.f = s.rng.f := by
  rw [programaLlegada_spec]
  split_ifs <;> rfl

theorem procesarLlegada_inv {delta : ℚ} (s : SimulacionColas) (hInv : Inv s)
    (ht : s.tiempoActual < s.duracionSimulacion) (hd : 0 ≤ delta)
    (hf : FlujoAcotado delta s.rng) : Inv (procesarLlegada s) := by
  rw [procesarLlegada_eq]
  have hInv2 := creaCliente_inv s hInv ht
  have hf2 : FlujoAcotado delta (creaCliente s).rng :=
    flujo_de_f (creaCliente_f s) hf
  have hmid : Inv (if ((creaCliente s).estaciones.getD CAJAS
        default).hayServidorDisponible then
        iniciarServicio CAJAS (creaCliente s) else creaCliente s) ∧
      (if ((creaCliente s).estaciones.getD CAJAS
        default).hayServidorDisponible then
        iniciarServicio CAJAS (creaCliente s) else creaCliente s).rng.f =
        s.rng.f := by
    split_ifs
    · exact ⟨iniciar_inv CAJAS _ hInv2 hd hf2,
        by rw [(iniciar_campos CAJAS _).2.2.2.2.2.2.1, creaCliente_f]⟩
    · exact ⟨hInv2, creaCliente_f s⟩
  exact programaLlegada_inv _ hmid.1 hd (flujo_de_f hmid.2 hf)

theorem procesarLlegada_f (s : SimulacionColas) :
    (procesarLlegada s).rng.f = s.rng.f := by
  rw [procesarLlegada_eq, programaLlegada_f]
  split_ifs
  · rw [(iniciar_campos CAJAS _).2.2.2.2.2.2.1, creaCliente_f]
  · exact creaCliente_f s

theorem procesarLlegada_carga (s : SimulacionColas) :
    cargaClientes (procesarLlegada s) ≤ cargaClientes s + 5 := by
  rw [procesarLlegada_eq, programaLlegada_carga]
  have hcrea := creaCliente_carga s
  have hlong := (ruta_long s).2
  split_ifs
  · rw [iniciar_carga]
    omega
  · omega

theorem procesarLlegada_presupuesto {delta : ℚ} (s : SimulacionColas)
    (hdelta : 0 < delta) (hf : FlujoAcotado delta s.rng)
    (ht : s.tiempoActual < s.duracionSimulacion) :
    presupuesto delta (procesarLlegada s) + 1 ≤ presupuesto delta s +
      (⌈(s.duracionSimulacion - s.tiempoActual) / delta⌉).toNat := by
  rw [procesarLlegada_eq]
  have hfmid : (if ((creaCliente s).estaciones.getD CAJAS
      default).hayServidorDisponible then
      iniciarServicio CAJAS (creaCliente s) else creaCliente s).rng.f =
      s.rng.f := by
    split_ifs
    · rw [(iniciar_campos CAJAS _).2.2.2.2.2.2.1, creaCliente_f]
    · exact creaCliente_f s
  have hpre : presupuesto delta (if ((creaCliente s).estaciones.getD CAJAS
      default).hayServidorDisponible then
      iniciarServicio CAJAS (creaCliente s) else creaCliente s) =
      presupuesto delta s := by
    split_ifs
    · rw [iniciar_presupuesto, creaCliente_presupuesto]
    · rw [creaCliente_presupuesto]
  have hta : (if ((creaCliente s).estaciones.getD CAJAS
      default).hayServidorDisponible then
      iniciarServicio CAJAS (creaCliente s) else creaCliente s).tiempoActual =
      s.tiempoActual := by
    split_ifs
    · rw [(iniciar_campos CAJAS _).1]; rfl
    · rfl
  have hdu : (if ((creaCliente s).estaciones.getD CAJAS
      default).hayServidorDisponible then
      iniciarServicio CAJAS (creaCliente s) else creaCliente s).duracionSimulacion =
      s.duracionSimulacion := by
    split_ifs
    · rw [(iniciar_campos CAJAS _).2.1]; rfl
    · rfl
  have hthis := programaLlegada_presupuesto
    (if ((creaCliente s).estaciones.getD CAJAS default).hayServidorDisponible
     then iniciarServicio CAJAS (creaCliente s) else creaCliente s)
    hdelta (flujo_de_f hfmid hf) (by rw [hta, hdu]; exact ht)
  rw [hpre, hta, hdu] at hthis
  exact hthis

theorem procesarLlegada_len (s : SimulacionColas) :
    (procesarLlegada s).colaEventos.length ≤ s.colaEventos.length + 2 := by
  rw [procesarLlegada_eq]
  have h1 := programaLlegada_len
    (if ((creaCliente s).estaciones.getD CAJAS default).hayServidorDisponible
     then iniciarServicio CAJAS (creaCliente s) else creaCliente s)
  have h2 : (if ((creaCliente s).estaciones.getD CAJAS
      default).hayServidorDisponible then
      iniciarServicio CAJAS (creaCliente s) else creaCliente s).colaEventos.length ≤
      s.colaEventos.length + 1 := by
    split_ifs
    · have := iniciar_eventosLen CAJAS (creaCliente s)
      rw [creaCliente_eventos] at this
      exact this
    · rw [creaCliente_eventos]
      exact Nat.le_succ _
  omega

/-!
Propiedades del avance del reloj tras extraer el evento mínimo.
-/

theorem avanza_ocupados {s : SimulacionColas} {e : Evento} {rest : List Evento}
    (hpop : popMin s.colaEventos = some (e, rest)) :
    (ocupados s).Perm ((finId e).toList ++ ocupados (avanza s e rest)) := by
  have hperm := popMin_perm _ _ _ hpop
  have hfm := hperm.filterMap finId
  have hcons : (e :: rest).filterMap finId =
      (finId e).toList ++ rest.filterMap finId := by
    cases hfe : finId e <;> simp [List.filterMap_cons, hfe]
  rw [hcons] at hfm
  have : (ocupados s).Perm
      (((finId e).toList ++ rest.filterMap finId) ++ idsEnColas s) :=
    List.Perm.append_right _ hfm
  rw [List.append_assoc] at this
  exact this

theorem avanza_inv {s : SimulacionColas} {e : Evento} {rest : List Evento}
    (hInv : Inv s) (hpop : popMin s.colaEventos = some (e, rest)) :
    Inv (avanza s e rest) := by
  obtain ⟨h1, h2, h3, h4, h5, h6, h7, h8, h9, h10, h11, h12⟩ := hInv
  have hperm := popMin_perm _ _ _ hpop
  have hmin := popMin_le _ _ _ hpop
  have hte : s.tiempoActual ≤ e.tiempo := (h4 e (popMin_mem hpop)).1
  have hocu := avanza_ocupados hpop
  refine ⟨h1, h2, le_trans h3 hte, ?_, ?_, ?_, ?_, h8, h9, h10, h11, h12⟩
  · intro x hx
    have hxl : x ∈ s.colaEventos :=
      hperm.symm.mem_iff.mp (List.mem_cons_of_mem e hx)
    exact ⟨hmin x hxl, (h4 x hxl).2⟩
  · have := (hocu.nodup_iff).mp h5
    exact this.of_append_right
  · intro i hi
    have : i ∈ ocupados s :=
      hocu.symm.mem_iff.mp (List.mem_append_right _ hi)
    exact h6 i this
  · intro st hst
    exact estacionOk_mono (h7 st hst) hte

theorem avanza_fin_datos {s : SimulacionColas} {e : Evento} {rest : List Evento}
    {idC : ℕ} (hInv : Inv s) (hpop : popMin s.colaEventos = some (e, rest))
    (hfe : finId e = some idC) :
    clienteOk (avanza s e rest) idC ∧ idC ∉ ocupados (avanza s e rest) := by
  obtain ⟨h1, h2, h3, h4, h5, h6, h7, h8, h9, h10, h11, h12⟩ := hInv
  have hocu := avanza_ocupados hpop
  rw [hfe] at hocu
  have hnodup := (hocu.nodup_iff).mp h5
  have hmem : idC ∈ ocupados s := by
    exact hocu.symm.mem_iff.mp (by simp)
  have hok := h6 idC hmem
  constructor
  · exact hok
  · have := List.nodup_cons.mp hnodup
    exact this.1

/-!
Descomposición de `procesarFinServicio` en etapas para las pruebas.
-/

/-- Etapa A y B de `procesarFinServicio`: liberar el servidor de la estación
del evento y avanzar el índice de ruta del cliente. -/
def avanzaCliente (e : Evento) (s : SimulacionColas) : SimulacionColas :=
  let idEstacion := e.idEstacion.getD 0
  let idCliente := e.idCliente.getD 0
  let stFin := (s.estaciones.getD idEstacion default).finalizarServicio s.tiempoActual
  let s1 := { s with estaciones := s.estaciones.set idEstacion stFin }
  let c := s1.clientes.getD idCliente default
  let c2 := { c with indiceEstacionActual := c.indiceEstacionActual + 1 }
  { s1 with clientes := s1.clientes.set idCliente c2 }

/-- El cliente del evento tras incrementar su índice de ruta. -/
def clienteTras (e : Evento) (s : SimulacionColas) : Cliente :=
  let c := s.clientes.getD (e.idCliente.getD 0) default
  { c with indiceEstacionActual := c.indiceEstacionActual + 1 }

/-- Etapa C de `procesarFinServicio`: enrutar al cliente a su siguiente
estación o marcarlo como completado. -/
def enruta (idCliente : ℕ) (c : Cliente) (s : SimulacionColas) :
    SimulacionColas :=
  if c.indiceEstacionActual < c.estaciones.length then
    let siguienteEstacion := c.estaciones.getD c.indiceEstacionActual 0
    let c2 := { c with tiempoEntradaCola := s.tiempoActual }
    let sa := { s with clientes := s.clientes.set idCliente c2 }
    let stS := (sa.estaciones.getD siguienteEstacion default).agregarCliente
      c2.id sa.tiempoActual
    let sb := { sa with estaciones := sa.estaciones.set siguienteEstacion stS }
    if (sb.estaciones.getD siguienteEstacion default).hayServidorDisponible then
      iniciarServicio siguienteEstacion sb
    else sb
  else { s with clientesCompletados := s.clientesCompletados ++ [c] }

/-- Etapa D de `procesarFinServicio`: atender al siguiente cliente en espera
de la estación que acaba de liberar un servidor. -/
def atiendeSiguiente (idEstacion : ℕ) (s : SimulacionColas) : SimulacionColas :=
  if !(s.estaciones.getD idEstacion default).estaVacia &&
      (s.estaciones.getD idEstacion default).hayServidorDisponible then
    iniciarServicio idEstacion s
  else s

theorem procesarFinServicio_eq (e : Evento) (s : SimulacionColas) :
    procesarFinServicio e s =
      atiendeSiguiente (e.idEstacion.getD 0)
        (enruta (e.idCliente.getD 0) (clienteTras e s) (avanzaCliente e s)) :=
  rfl

theorem getD_map {α β : Type _} (f : α → β) (l : List α) (i : ℕ) (d : α)
    (h : i < l.length) : (l.map f).getD i (f d) = f (l.getD i d) := by
  simp [List.getD, List.getElem?_map, List.getElem?_eq_getElem h]

theorem idsEnColas_set_samecola (s : SimulacionColas) (idE : ℕ) (stN : Estacion)
    (h : stN.colaEspera = (s.estaciones.getD idE default).colaEspera) :
    ((s.estaciones.set idE stN).map (fun st => st.colaEspera)).flatten =
      idsEnColas s := by
  rw [List.map_set .., h]
  by_cases hlen : idE < s.estaciones.length
  · have hmap := getD_map (fun st => st.colaEspera) s.estaciones idE default hlen
    simp only at hmap
    unfold idsEnColas
    rw [← hmap, set_getD_self _ idE _ (by simpa using hlen)]
  · rw [List.set_eq_of_length_le (by simpa using le_of_not_lt hlen)]
    rfl

theorem avanzaCliente_ocupados (e : Evento) (s : SimulacionColas) :
    ocupados (avanzaCliente e s) = ocupados s := by
  unfold ocupados idsEnServicio
  show (s.colaEventos.filterMap finId) ++ idsEnColas (avanzaCliente e s) =
    (s.colaEventos.filterMap finId) ++ idsEnColas s
  congr 1
  show ((s.estaciones.set (e.idEstacion.getD 0)
    ((s.estaciones.getD (e.idEstacion.getD 0) default).finalizarServicio
      s.tiempoActual)).map (fun st => st.colaEspera)).flatten = idsEnColas s
  exact idsEnColas_set_samecola s _ _ (finalizar_cola _ _)

theorem avanzaCliente_inv (e : Evento) (s : SimulacionColas) (hInv : Inv s)
    (hid : clienteOk s (e.idCliente.getD 0))
    (hnm : e.idCliente.getD 0 ∉ ocupados s) : Inv (avanzaCliente e s) := by
  obtain ⟨h1, h2, h3, h4, h5, h6, h7, h8, h9, h10, h11, h12⟩ := hInv
  obtain ⟨hidlt, hidin⟩ := hid
  have hocu := avanzaCliente_ocupados e s
  refine ⟨?_, ?_, h3, h4, ?_, ?_, ?_, ?_, ?_, ?_, h11, ?_⟩
  · show (s.estaciones.set _ _).length = NUM_EST
    simpa using h1
  · show s.siguienteIdCliente = (s.clientes.set _ _).length
    simpa using h2
  · rw [hocu]; exact h5
  · intro i hi
    rw [hocu] at hi
    obtain ⟨ha, hb⟩ := h6 i hi
    have hne : e.idCliente.getD 0 ≠ i := by
      intro heq; rw [heq] at hnm; exact hnm hi
    constructor
    · show i < (s.clientes.set _ _).length
      simpa using ha
    · show ((s.clientes.set _ _).getD i default).indiceEstacionActual <
        ((s.clientes.set _ _).getD i default).estaciones.length
      rw [getD_set_ne _ _ _ hne]
      exact hb
  · intro st hst
    rcases mem_set_strong hst with hmem | ⟨hlen, heq⟩
    · exact h7 st hmem
    · subst heq
      exact estacionOk_finalizar (h7 _ (getD_mem s.estaciones _ default hlen))
  · intro c hc
    rcases mem_set_strong hc with hmem | ⟨hlen, heq⟩
    · exact h8 c hmem
    · subst heq
      show (s.clientes.getD _ default).indiceEstacionActual + 1 ≤
        (s.clientes.getD _ default).estaciones.length
      omega
  · intro c hc
    rcases mem_set_strong hc with hmem | ⟨hlen, heq⟩
    · exact h9 c hmem
    · subst heq
      show (s.clientes.getD _ default).tiempoLlegada < s.duracionSimulacion
      exact h9 _ (getD_mem s.clientes _ default hlen)
  · intro c hc
    rcases mem_set_strong hc with hmem | ⟨hlen, heq⟩
    · exact h10 c hmem
    · subst heq
      show ∀ k ∈ (s.clientes.getD _ default).estaciones, k < NUM_EST
      exact h10 _ (getD_mem s.clientes _ default hlen)
  · exact ids_set h12 _ _ rfl

theorem avanzaCliente_carga (e : Evento) (s : SimulacionColas)
    (hid : clienteOk s (e.idCliente.getD 0)) :
    cargaClientes (avanzaCliente e s) + 1 = cargaClientes s := by
  obtain ⟨hidlt, hidin⟩ := hid
  unfold cargaClientes
  have hs := sum_map_set faltantes s.clientes (e.idCliente.getD 0)
    (clienteTras e s) default hidlt
  have hfal : faltantes (clienteTras e s) + 1 =
      faltantes (s.clientes.getD (e.idCliente.getD 0) default) := by
    unfold faltantes clienteTras
    simp only
    omega
  show ((s.clientes.set (e.idCliente.getD 0) (clienteTras e s)).map
    faltantes).sum + 1 = (s.clientes.map faltantes).sum
  omega

theorem avanzaCliente_campos (e : Evento) (s : SimulacionColas) :
    (avanzaCliente e s).colaEventos = s.colaEventos ∧
    (avanzaCliente e s).tiempoActual = s.tiempoActual ∧
    (avanzaCliente e s).duracionSimulacion = s.duracionSimulacion ∧
    (avanzaCliente e s).rng = s.rng ∧
    (avanzaCliente e s).clientesCompletados = s.clientesCompletados ∧
    (avanzaCliente e s).clientes.length = s.clientes.length := by
  refine ⟨rfl, rfl, rfl, rfl, rfl, ?_⟩
  show (s.clientes.set _ _).length = s.clientes.length
  simp

theorem avanzaCliente_presupuesto (delta : ℚ) (e : Evento)
    (s : SimulacionColas) :
    presupuesto delta (avanzaCliente e s) = presupuesto delta s := rfl

theorem avanzaCliente_getD (e : Evento) (s : SimulacionColas)
    (hid : e.idCliente.getD 0 < s.clientes.length) :
    (avanzaCliente e s).clientes.getD (e.idCliente.getD 0) default =
      clienteTras e s := by
  show (s.clientes.set (e.idCliente.getD 0) (clienteTras e s)).getD
    (e.idCliente.getD 0) default = clienteTras e s
  exact getD_set_self _ _ _ _ hid

theorem ocupados_enqueue (s : SimulacionColas) (k n : ℕ)
    (hk : k < s.estaciones.length) :
    (ocupados { s with estaciones := s.estaciones.set k ((s.estaciones.getD k default).agregarCliente n s.tiempoActual) }).Perm (n :: ocupados s) := by
  obtain ⟨pre, post, hold, hnew⟩ :=
    flatten_map_set (fun st => st.colaEspera) s.estaciones k
      ((s.estaciones.getD k default).agregarCliente n s.tiempoActual) default hk
  set q0 := (s.estaciones.getD k default).colaEspera
  have step2 : ((q0 ++ [n]) ++ post).Perm (n :: (q0 ++ post)) :=
    (append_singleton_perm q0 n).append_right post
  have step3 := List.Perm.append_left pre step2
  have step4 : (pre ++ (n :: (q0 ++ post))).Perm (n :: (pre ++ (q0 ++ post))) :=
    List.perm_middle
  have step5 := step3.trans step4
  have main1 : (ocupados { s with estaciones := s.estaciones.set k ((s.estaciones.getD k default).agregarCliente n s.tiempoActual) }).Perm
      (idsEnServicio s ++ (n :: (pre ++ (q0 ++ post)))) := by
    rw [ocupados]
    have hser : idsEnServicio { s with estaciones := s.estaciones.set k ((s.estaciones.getD k default).agregarCliente n s.tiempoActual) } = idsEnServicio s := rfl
    rw [hser]
    refine List.Perm.append_left _ ?_
    show ((s.estaciones.set k ((s.estaciones.getD k default).agregarCliente n s.tiempoActual)).map (fun st => st.colaEspera)).flatten.Perm _
    rw [hnew]
    exact step5
  have main2 : (idsEnServicio s ++ (n :: (pre ++ (q0 ++ post)))).Perm
      (n :: (idsEnServicio s ++ (pre ++ (q0 ++ post)))) := List.perm_middle
  have main3 : ocupados s = idsEnServicio s ++ (pre ++ (q0 ++ post)) := by
    rw [ocupados, idsEnColas, hold]
  rw [main3]
  exact main1.trans main2

theorem setCliente_inv (s : SimulacionColas) (hInv : Inv s) (k : ℕ)
    (cN : Cliente)
    (hind : cN.indiceEstacionActual =
      (s.clientes.getD k default).indiceEstacionActual)
    (hest : cN.estaciones = (s.clientes.getD k default).estaciones)
    (hlleg : cN.tiempoLlegada = (s.clientes.getD k default).tiempoLlegada)
    (hcid : cN.id = (s.clientes.getD k default).id) :
    Inv { s with clientes := s.clientes.set k cN } := by
  obtain ⟨h1, h2, h3, h4, h5, h6, h7, h8, h9, h10, h11, h12⟩ := hInv
  refine ⟨h1, ?_, h3, h4, h5, ?_, h7, ?_, ?_, ?_, h11, ?_⟩
  · show s.siguienteIdCliente = (s.clientes.set k cN).length
    simpa using h2
  · intro i hi
    obtain ⟨ha, hb⟩ := h6 i hi
    refine ⟨by simpa using ha, ?_⟩
    by_cases hk : k = i
    · subst hk
      rw [getD_set_self _ _ _ _ ha, hind, hest]
      exact hb
    · rw [getD_set_ne _ _ _ hk]
      exact hb
  · intro c hc
    rcases mem_set_strong hc with hmem | ⟨hlen, heq⟩
    · exact h8 c hmem
    · subst heq
      rw [hind, hest]
      exact h8 _ (getD_mem s.clientes k default hlen)
  · intro c hc
    rcases mem_set_strong hc with hmem | ⟨hlen, heq⟩
    · exact h9 c hmem
    · subst heq
      rw [hlleg]
      exact h9 _ (getD_mem s.clientes k default hlen)
  · intro c hc
    rcases mem_set_strong hc with hmem | ⟨hlen, heq⟩
    · exact h10 c hmem
    · subst heq
      rw [hest]
      exact h10 _ (getD_mem s.clientes k default hlen)
  · exact ids_set h12 k cN hcid

theorem encola_inv (s : SimulacionColas) (hInv : Inv s) (k n : ℕ)
    (hkl : k < s.estaciones.length)
    (hn : clienteOk s n) (hnm : n ∉ ocupados s) :
    Inv { s with estaciones := s.estaciones.set k ((s.estaciones.getD k default).agregarCliente n s.tiempoActual) } := by
  obtain ⟨h1, h2, h3, h4, h5, h6, h7, h8, h9, h10, h11, h12⟩ := hInv
  have hperm := ocupados_enqueue s k n hkl
  refine ⟨?_, h2, h3, h4, ?_, ?_, ?_, h8, h9, h10, h11, h12⟩
  · show (s.estaciones.set _ _).length = NUM_EST
    simpa using h1
  · exact (hperm.nodup_iff).mpr (List.nodup_cons.mpr ⟨hnm, h5⟩)
  · intro i hi
    rcases List.mem_cons.mp (hperm.mem_iff.mp hi) with hie | hio
    · subst hie; exact hn
    · exact h6 i hio
  · intro st hst
    rcases mem_set_strong hst with hmem | ⟨hlen, heq⟩
    · exact h7 st hmem
    · subst heq
      exact estacionOk_agregar (h7 _ (getD_mem s.estaciones k default hlen)) _ _

theorem enruta_inv {delta : ℚ} (idC : ℕ) (c : Cliente) (s : SimulacionColas)
    (hInv : Inv s) (hlt : idC < s.clientes.length)
    (hgd : s.clientes.getD idC default = c)
    (hnm : idC ∉ ocupados s) (hd : 0 ≤ delta) (hf : FlujoAcotado delta s.rng) :
    Inv (enruta idC c s) := by
  have hcmem : c ∈ s.clientes := hgd ▸ getD_mem s.clientes idC default hlt
  have hcid : c.id = idC := by
    rw [← hgd]
    exact hInv.2.2.2.2.2.2.2.2.2.2.2 idC hlt
  simp only [enruta]
  split_ifs with hroute hdisp
  · have hInv_sa : Inv { s with clientes := s.clientes.set idC { c with tiempoEntradaCola := s.tiempoActual } } :=
      setCliente_inv s hInv idC _ (by rw [hgd]) (by rw [hgd]) (by rw [hgd]) (by rw [hgd])
    have hsig5 : c.estaciones.getD c.indiceEstacionActual 0 < s.estaciones.length := by
      rw [hInv.1]
      exact hInv.2.2.2.2.2.2.2.2.2.1 c hcmem _ (getD_mem _ _ _ hroute)
    have hok_sa : clienteOk { s with clientes := s.clientes.set idC { c with tiempoEntradaCola := s.tiempoActual } } c.id := by
      rw [hcid]
      refine ⟨by simpa using hlt, ?_⟩
      show ((s.clientes.set idC _).getD idC default).indiceEstacionActual < _
      rw [getD_set_self _ _ _ _ hlt]
      exact hroute
    have hnm_sa : c.id ∉ ocupados { s with clientes := s.clientes.set idC { c with tiempoEntradaCola := s.tiempoActual } } := by
      rw [hcid]
      exact hnm
    have hInv_sb := encola_inv _ hInv_sa (c.estaciones.getD c.indiceEstacionActual 0)
      c.id (by simpa using hsig5) hok_sa hnm_sa
    exact iniciar_inv _ _ hInv_sb hd (flujo_de_f rfl hf)
  · have hInv_sa : Inv { s with clientes := s.clientes.set idC { c with tiempoEntradaCola := s.tiempoActual } } :=
      setCliente_inv s hInv idC _ (by rw [hgd]) (by rw [hgd]) (by rw [hgd]) (by rw [hgd])
    have hsig5 : c.estaciones.getD c.indiceEstacionActual 0 < s.estaciones.length := by
      rw [hInv.1]
      exact hInv.2.2.2.2.2.2.2.2.2.1 c hcmem _ (getD_mem _ _ _ hroute)
    have hok_sa : clienteOk { s with clientes := s.clientes.set idC { c with tiempoEntradaCola := s.tiempoActual } } c.id := by
      rw [hcid]
      refine ⟨by simpa using hlt, ?_⟩
      show ((s.clientes.set idC _).getD idC default).indiceEstacionActual < _
      rw [getD_set_self _ _ _ _ hlt]
      exact hroute
    have hnm_sa : c.id ∉ ocupados { s with clientes := s.clientes.set idC { c with tiempoEntradaCola := s.tiempoActual } } := by
      rw [hcid]
      exact hnm
    exact encola_inv _ hInv_sa (c.estaciones.getD c.indiceEstacionActual 0)
      c.id (by simpa using hsig5) hok_sa hnm_sa
  · obtain ⟨h1, h2, h3, h4, h5, h6, h7, h8, h9, h10, h11, h12⟩ := hInv
    refine ⟨h1, h2, h3, h4, h5, h6, h7, h8, h9, h10, ?_, h12⟩
    intro x hx
    rcases List.mem_append.mp hx with hx | hx
    · exact h11 x hx
    · rw [List.mem_singleton] at hx
      subst hx
      have := h8 _ hcmem
      omega

theorem enruta_carga (idC : ℕ) (c : Cliente) (s : SimulacionColas)
    (hgd : s.clientes.getD idC default = c) :
    cargaClientes (enruta idC c s) = cargaClientes s := by
  simp only [enruta]
  split_ifs with hroute hdisp
  · rw [iniciar_carga]
    show ((s.clientes.set idC _).map faltantes).sum = _
    exact carga_set s idC _ (by rw [hgd]; rfl)
  · show ((s.clientes.set idC _).map faltantes).sum = _
    exact carga_set s idC _ (by rw [hgd]; rfl)
  · rfl

theorem enruta_presupuesto (delta : ℚ) (idC : ℕ) (c : Cliente)
    (s : SimulacionColas) :
    presupuesto delta (enruta idC c s) = presupuesto delta s := by
  simp only [enruta]
  split_ifs with hroute hdisp
  · rw [iniciar_presupuesto]
    rfl
  · rfl
  · rfl

theorem enruta_len (idC : ℕ) (c : Cliente) (s : SimulacionColas) :
    (enruta idC c s).colaEventos.length ≤ s.colaEventos.length + 1 := by
  simp only [enruta]
  split_ifs with hroute hdisp
  · exact iniciar_eventosLen _ _
  · exact Nat.le_succ _
  · exact Nat.le_succ _

theorem enruta_f (idC : ℕ) (c : Cliente) (s : SimulacionColas) :
    (enruta idC c s).rng.f = s.rng.f := by
  simp only [enruta]
  split_ifs with hroute hdisp
  · exact (iniciar_campos _ _).2.2.2.2.2.2.1
  · rfl
  · rfl

theorem enruta_completados (idC : ℕ) (c : Cliente) (s : SimulacionColas) :
    (enruta idC c s).clientesCompletados = s.clientesCompletados ∨
    (enruta idC c s).clientesCompletados = s.clientesCompletados ++ [c] := by
  simp only [enruta]
  split_ifs with hroute hdisp
  · left; exact (iniciar_campos _ _).2.2.2.2.1
  · left; rfl
  · right; rfl

theorem atiende_inv {delta : ℚ} (k : ℕ) (s : SimulacionColas) (hInv : Inv s)
    (hd : 0 ≤ delta) (hf : FlujoAcotado delta s.rng) :
    Inv (atiendeSiguiente k s) := by
  unfold atiendeSiguiente
  split_ifs with h
  · exact iniciar_inv k s hInv hd hf
  · exact hInv

theorem atiende_carga (k : ℕ) (s : SimulacionColas) :
    cargaClientes (atiendeSiguiente k s) = cargaClientes s := by
  unfold atiendeSiguiente
  split_ifs with h
  · exact iniciar_carga k s
  · rfl

theorem atiende_presupuesto (delta : ℚ) (k : ℕ) (s : SimulacionColas) :
    presupuesto delta (atiendeSiguiente k s) = presupuesto delta s := by
  unfold atiendeSiguiente
  split_ifs with h
  · exact iniciar_presupuesto delta k s
  · rfl

theorem atiende_len (k : ℕ) (s : SimulacionColas) :
    (atiendeSiguiente k s).colaEventos.length ≤ s.colaEventos.length + 1 := by
  unfold atiendeSiguiente
  split_ifs with h
  · exact iniciar_eventosLen k s
  · exact Nat.le_succ _

theorem atiende_f (k : ℕ) (s : SimulacionColas) :
    (atiendeSiguiente k s).rng.f = s.rng.f := by
  unfold atiendeSiguiente
  split_ifs with h
  · exact (iniciar_campos _ _).2.2.2.2.2.2.1
  · rfl

theorem procesarFin_inv {delta : ℚ} (e : Evento) (s : SimulacionColas)
    (hInv : Inv s) (hid : clienteOk s (e.idCliente.getD 0))
    (hnm : e.idCliente.getD 0 ∉ ocupados s)
    (hd : 0 ≤ delta) (hf : FlujoAcotado delta s.rng) :
    Inv (procesarFinServicio e s) := by
  rw [procesarFinServicio_eq]
  have hA := avanzaCliente_inv e s hInv hid hnm
  have hlink := avanzaCliente_getD e s hid.1
  have hlt2 : e.idCliente.getD 0 < (avanzaCliente e s).clientes.length := by
    rw [(avanzaCliente_campos e s).2.2.2.2.2]
    exact hid.1
  have hnm2 : e.idCliente.getD 0 ∉ ocupados (avanzaCliente e s) := by
    rw [avanzaCliente_ocupados]
    exact hnm
  have hfA : FlujoAcotado delta (avanzaCliente e s).rng := hf
  have hE := enruta_inv _ _ _ hA hlt2 hlink hnm2 hd hfA
  exact atiende_inv _ _ hE hd (flujo_de_f (enruta_f _ _ _) hfA)

theorem procesarFin_carga (e : Evento) (s : SimulacionColas)
    (hid : clienteOk s (e.idCliente.getD 0)) :
    cargaClientes (procesarFinServicio e s) + 1 = cargaClientes s := by
  rw [procesarFinServicio_eq, atiende_carga,
    enruta_carga _ _ _ (avanzaCliente_getD e s hid.1)]
  exact avanzaCliente_carga e s hid

theorem procesarFin_presupuesto (delta : ℚ) (e : Evento) (s : SimulacionColas) :
    presupuesto delta (procesarFinServicio e s) = presupuesto delta s := by
  rw [procesarFinServicio_eq, atiende_presupuesto, enruta_presupuesto]
  exact avanzaCliente_presupuesto delta e s

theorem procesarFin_len (e : Evento) (s : SimulacionColas) :
    (procesarFinServicio e s).colaEventos.length ≤ s.colaEventos.length + 2 := by
  rw [procesarFinServicio_eq]
  have h1 := atiende_len (e.idEstacion.getD 0)
    (enruta (e.idCliente.getD 0) (clienteTras e s) (avanzaCliente e s))
  have h2 := enruta_len (e.idCliente.getD 0) (clienteTras e s) (avanzaCliente e s)
  have h3 : (avanzaCliente e s).colaEventos.length = s.colaEventos.length := by
    rw [(avanzaCliente_campos e s).1]
  omega

theorem procesarFin_f (e : Evento) (s : SimulacionColas) :
    (procesarFinServicio e s).rng.f = s.rng.f := by
  rw [procesarFinServicio_eq, atiende_f, enruta_f]
  rfl

/-!
Una iteración del bucle principal: invariante, flujo y medida.
-/

theorem fin_payload {s : SimulacionColas} {e : Evento} {rest : List Evento}
    (hInv : Inv s) (hpop : popMin s.colaEventos = some (e, rest))
    (htipo : e.tipo = TipoEvento.finServicio) :
    finId e = some (e.idCliente.getD 0) := by
  have h4 := hInv.2.2.2.1
  have hpay := (h4 e (popMin_mem hpop)).2 htipo
  obtain ⟨a, ha⟩ := Option.isSome_iff_exists.mp hpay.1
  simp [finId, htipo, ha]

theorem paso_vacio {s : SimulacionColas} (h : popMin s.colaEventos = none) :
    paso s = s := by
  unfold paso
  simp only [h]

theorem paso_llegada {s : SimulacionColas} {e : Evento} {rest : List Evento}
    (hpop : popMin s.colaEventos = some (e, rest))
    (htipo : e.tipo = TipoEvento.llegada) :
    paso s = if (avanza s e rest).tiempoActual <
        (avanza s e rest).duracionSimulacion then
      procesarLlegada (avanza s e rest) else avanza s e rest := by
  unfold paso
  simp only [hpop, htipo]

theorem paso_fin {s : SimulacionColas} {e : Evento} {rest : List Evento}
    (hpop : popMin s.colaEventos = some (e, rest))
    (htipo : e.tipo = TipoEvento.finServicio) :
    paso s = procesarFinServicio e (avanza s e rest) := by
  unfold paso
  simp only [hpop, htipo]

theorem paso_inv {delta : ℚ} (s : SimulacionColas) (hInv : Inv s)
    (hd : 0 ≤ delta) (hf : FlujoAcotado delta s.rng) : Inv (paso s) := by
  cases hpop : popMin s.colaEventos with
  | none => rw [paso_vacio hpop]; exact hInv
  | some p =>
    obtain ⟨e, rest⟩ := p
    have hA := avanza_inv hInv hpop
    cases htipo : e.tipo with
    | llegada =>
      rw [paso_llegada hpop htipo]
      split_ifs with ht
      · exact procesarLlegada_inv _ hA ht hd hf
      · exact hA
    | finServicio =>
      rw [paso_fin hpop htipo]
      have hfe := fin_payload hInv hpop htipo
      obtain ⟨hid, hnm⟩ := avanza_fin_datos hInv hpop hfe
      exact procesarFin_inv e _ hA hid hnm hd hf

theorem paso_f (s : SimulacionColas) : (paso s).rng.f = s.rng.f := by
  cases hpop : popMin s.colaEventos with
  | none => rw [paso_vacio hpop]
  | some p =>
    obtain ⟨e, rest⟩ := p
    cases htipo : e.tipo with
    | llegada =>
      rw [paso_llegada hpop htipo]
      split_ifs with ht
      · exact procesarLlegada_f _
      · rfl
    | finServicio =>
      rw [paso_fin hpop htipo]
      exact procesarFin_f e _

theorem paso_medida {delta : ℚ} (s : SimulacionColas) (hInv : Inv s)
    (hdelta : 0 < delta) (hf : FlujoAcotado delta s.rng)
    (hne : s.colaEventos ≠ []) : medida delta (paso s) < medida delta s := by
  cases hpop : popMin s.colaEventos with
  | none => exact absurd ((popMin_none _).mp hpop) hne
  | some p =>
    obtain ⟨e, rest⟩ := p
    have hperm := popMin_perm _ _ _ hpop
    have hsum : presupuesto delta s =
        presupuestoEvento delta s.duracionSimulacion e +
          (rest.map (presupuestoEvento delta s.duracionSimulacion)).sum := by
      have := (hperm.map (presupuestoEvento delta s.duracionSimulacion)).sum_eq
      simpa [presupuesto] using this
    have hlen : s.colaEventos.length = rest.length + 1 := by
      have := hperm.length_eq
      simpa using this
    have hA := avanza_inv hInv hpop
    have hpre : presupuesto delta (avanza s e rest) =
        (rest.map (presupuestoEvento delta s.duracionSimulacion)).sum := rfl
    have hcar : cargaClientes (avanza s e rest) = cargaClientes s := rfl
    cases htipo : e.tipo with
    | llegada =>
      have hpe : presupuestoEvento delta s.duracionSimulacion e =
          (⌈(s.duracionSimulacion - e.tiempo) / delta⌉).toNat := by
        simp [presupuestoEvento, htipo]
      rw [paso_llegada hpop htipo]
      split_ifs with ht
      · have hP := procesarLlegada_presupuesto (avanza s e rest) hdelta hf ht
        have hC := procesarLlegada_carga (avanza s e rest)
        have hL := procesarLlegada_len (avanza s e rest)
        rw [hpre] at hP
        rw [hcar] at hC
        have hL2 : (avanza s e rest).colaEventos.length = rest.length := rfl
        rw [hL2] at hL
        have hta : (avanza s e rest).tiempoActual = e.tiempo := rfl
        have hdu : (avanza s e rest).duracionSimulacion = s.duracionSimulacion := rfl
        rw [hta, hdu] at hP
        unfold medida
        omega
      · unfold medida
        have hmA : presupuesto delta (avanza s e rest) =
            (rest.map (presupuestoEvento delta s.duracionSimulacion)).sum := rfl
        have hcA : cargaClientes (avanza s e rest) = cargaClientes s := rfl
        have hL2 : (avanza s e rest).colaEventos.length = rest.length := rfl
        rw [hmA, hcA, hL2]
        omega
    | finServicio =>
      have hpe : presupuestoEvento delta s.duracionSimulacion e = 0 := by
        simp [presupuestoEvento, htipo]
      rw [paso_fin hpop htipo]
      have hfe := fin_payload hInv hpop htipo
      obtain ⟨hid, hnm⟩ := avanza_fin_datos hInv hpop hfe
      have hP := procesarFin_presupuesto delta e (avanza s e rest)
      have hC := procesarFin_carga e (avanza s e rest) hid
      have hL := procesarFin_len e (avanza s e rest)
      rw [hpre] at hP
      rw [hcar] at hC
      have hL2 : (avanza s e rest).colaEventos.length = rest.length := rfl
      rw [hL2] at hL
      unfold medida
      omega

theorem drena {delta : ℚ} (hdelta : 0 < delta) : ∀ (n : ℕ) (s : SimulacionColas),
    Inv s → FlujoAcotado delta s.rng → medida delta s ≤ n →
    (ejecutarAux n s).colaEventos = [] ∧ Inv (ejecutarAux n s) := by
  intro n
  induction n with
  | zero =>
    intro s hInv hf hm
    have hl : s.colaEventos.length = 0 := by
      unfold medida at hm
      omega
    exact ⟨List.length_eq_zero.mp hl, hInv⟩
  | succ n ih =>
    intro s hInv hf hm
    by_cases hq : s.colaEventos = []
    · rw [ejecutarAux, if_pos hq]
      exact ⟨hq, hInv⟩
    · rw [ejecutarAux, if_neg hq]
      have hmed := paso_medida s hInv hdelta hf hq
      exact ih (paso s) (paso_inv s hInv (le_of_lt hdelta) hf)
        (flujo_de_f (paso_f s) hf) (by omega)

theorem inv_inicial {delta : ℚ} (dur lam : ℚ) (g : GeneradorAleatorio)
    (cfg : ConfiguracionServidores) (hd : 0 ≤ delta) (hf : FlujoAcotado delta g) :
    Inv (inicializar (mkSimulacion dur lam g) cfg) := by
  have hocu : ocupados (inicializar (mkSimulacion dur lam g) cfg) = [] := rfl
  refine ⟨rfl, rfl, le_refl 0, ?_, ?_, ?_, ?_, ?_, ?_, ?_, ?_, ?_⟩
  · intro e he
    rw [show (inicializar (mkSimulacion dur lam g) cfg).colaEventos =
      [⟨g.f g.pos, TipoEvento.llegada, none, none⟩] from rfl] at he
    rw [List.mem_singleton] at he
    subst he
    exact ⟨le_trans hd (hf g.pos), fun h => TipoEvento.noConfusion h⟩
  · rw [hocu]; exact List.nodup_nil
  · intro i hi
    rw [hocu] at hi
    cases hi
  · intro st hst
    rw [show (inicializar (mkSimulacion dur lam g) cfg).estaciones =
      [mkEstacion CAJAS cfg.cajas, mkEstacion REFRESCOS cfg.refrescos,
       mkEstacion FREIDORA cfg.freidora, mkEstacion POSTRES cfg.postres,
       mkEstacion POLLO cfg.pollo] from rfl] at hst
    have hok : ∀ k n, estacionOk (0 : ℚ) (mkEstacion k n) := by
      intro k n
      refine ⟨by simp [mkEstacion], le_refl 0, le_refl 0, le_refl 0, ?_⟩
      simp [mkEstacion]
    simp only [List.mem_cons, List.mem_singleton] at hst
    rcases hst with h | h | h | h | h | h
    all_goals first
      | (subst h; exact hok _ _)
      | cases h
  · intro c hc; cases hc
  · intro c hc; cases hc
  · intro c hc; cases hc
  · intro c hc; cases hc
  · intro i hi
    rw [show (inicializar (mkSimulacion dur lam g) cfg).clientes = []
      from rfl] at hi
    simp at hi

/-!
Monotonía del acumulador de tiempo ocupado a lo largo de una iteración.
-/

/-- Acumulador de tiempo ocupado de la estación i. -/
def accAt (s : SimulacionColas) (i : ℕ) : ℚ :=
  (s.estaciones.getD i default).tiempoTotalOcupado

/-- Todos los últimos cambios de estado están en el pasado del reloj. -/
def relojOk (s : SimulacionColas) : Prop :=
  ∀ k, (s.estaciones.getD k default).tiempoUltimoCambio ≤ s.tiempoActual

theorem inv_reloj {s : SimulacionColas} (hInv : Inv s) : relojOk s := by
  intro k
  by_cases hk : k < s.estaciones.length
  · exact (hInv.2.2.2.2.2.2.1 _ (getD_mem s.estaciones k default hk)).2.1
  · rw [List.getD_eq_default _ _ (le_of_not_lt hk)]
    exact hInv.2.2.1

theorem finalizar_no_decrece {u : ℚ} {st : Estacion}
    (h : st.tiempoUltimoCambio ≤ u) :
    st.tiempoTotalOcupado ≤ (st.finalizarServicio u).tiempoTotalOcupado := by
  unfold Estacion.finalizarServicio
  cases hf : st.servidorOcupado.findIdx? (fun ocupado => ocupado) with
  | none => exact le_refl _
  | some j =>
    exact @actualizar_no_decrece u { st with servidorOcupado := st.servidorOcupado.set j false } h

theorem finalizar_last {u : ℚ} {st : Estacion} (h : st.tiempoUltimoCambio ≤ u) :
    (st.finalizarServicio u).tiempoUltimoCambio ≤ u := by
  unfold Estacion.finalizarServicio
  cases hf : st.servidorOcupado.findIdx? (fun ocupado => ocupado) with
  | none => exact h
  | some j => exact le_refl u

theorem mejora_set (s X : SimulacionColas) (k : ℕ) (stN : Estacion)
    (hX : X.estaciones = s.estaciones.set k stN)
    (hacc : (s.estaciones.getD k default).tiempoTotalOcupado ≤
      stN.tiempoTotalOcupado) :
    ∀ i, accAt s i ≤ accAt X i := by
  intro i
  unfold accAt
  rw [hX]
  by_cases hk : k = i
  · subst hk
    by_cases hlen : k < s.estaciones.length
    · rw [getD_set_self _ _ _ _ hlen]
      exact hacc
    · rw [List.set_eq_of_length_le (le_of_not_lt hlen)]
  · rw [getD_set_ne _ _ _ hk]

theorem reloj_set (s X : SimulacionColas) (k : ℕ) (stN : Estacion)
    (hX : X.estaciones = s.estaciones.set k stN)
    (ht : X.tiempoActual = s.tiempoActual)
    (hr : relojOk s)
    (hlast : stN.tiempoUltimoCambio ≤ s.tiempoActual) :
    relojOk X := by
  intro i
  rw [hX, ht]
  by_cases hk : k = i
  · subst hk
    by_cases hlen : k < s.estaciones.length
    · rw [getD_set_self _ _ _ _ hlen]
      exact hlast
    · rw [List.set_eq_of_length_le (le_of_not_lt hlen)]
      exact hr k
  · rw [getD_set_ne _ _ _ hk]
    exact hr i

theorem iniciar_mejora {idE : ℕ} {s : SimulacionColas} (hr : relojOk s) :
    ∀ i, accAt s i ≤ accAt (iniciarServicio idE s) i := by
  rcases iniciar_spec idE s with h | ⟨idC, resto, j, hq, hfj, h⟩
  · rw [h]; exact fun i => le_refl _
  · rw [h]
    refine mejora_set s _ idE _ rfl ?_
    exact actualizar_no_decrece (hr idE)

theorem iniciar_reloj {idE : ℕ} {s : SimulacionColas} (hr : relojOk s) :
    relojOk (iniciarServicio idE s) := by
  rcases iniciar_spec idE s with h | ⟨idC, resto, j, hq, hfj, h⟩
  · rw [h]; exact hr
  · rw [h]
    exact reloj_set s _ idE _ rfl rfl hr (le_refl _)

theorem crea_mejora (s : SimulacionColas) :
    ∀ i, accAt s i ≤ accAt (creaCliente s) i := by
  refine mejora_set s _ CAJAS
    ((s.estaciones.getD CAJAS default).agregarCliente s.siguienteIdCliente
      s.tiempoActual) ?_ (le_refl _)
  rw [creaCliente_spec]

theorem crea_reloj {s : SimulacionColas} (hr : relojOk s) :
    relojOk (creaCliente s) := by
  refine reloj_set s _ CAJAS
    ((s.estaciones.getD CAJAS default).agregarCliente s.siguienteIdCliente
      s.tiempoActual) ?_ ?_ hr (hr CAJAS)
  · rw [creaCliente_spec]
  · rw [creaCliente_spec]

theorem programa_estaciones (s : SimulacionColas) :
    (programaLlegada s).estaciones = s.estaciones ∧
    (programaLlegada s).tiempoActual = s.tiempoActual := by
  rw [programaLlegada_spec]
  split_ifs <;> exact ⟨rfl, rfl⟩

theorem procesarLlegada_mejora {s : SimulacionColas} (hr : relojOk s) :
    ∀ i, accAt s i ≤ accAt (procesarLlegada s) i := by
  intro i
  rw [procesarLlegada_eq]
  have hprog : ∀ X : SimulacionColas, accAt (programaLlegada X) i = accAt X i := by
    intro X
    unfold accAt
    rw [(programa_estaciones X).1]
  rw [hprog]
  split_ifs with hdisp
  · exact le_trans (crea_mejora s i) (iniciar_mejora (crea_reloj hr) i)
  · exact crea_mejora s i

theorem avanzaCliente_mejora {e : Evento} {s : SimulacionColas}
    (hr : relojOk s) :
    ∀ i, accAt s i ≤ accAt (avanzaCliente e s) i := by
  refine mejora_set s _ (e.idEstacion.getD 0) _ rfl ?_
  exact finalizar_no_decrece (hr _)

theorem avanzaCliente_reloj {e : Evento} {s : SimulacionColas}
    (hr : relojOk s) : relojOk (avanzaCliente e s) := by
  refine reloj_set s _ (e.idEstacion.getD 0) _ rfl rfl hr ?_
  exact finalizar_last (hr _)

theorem enruta_mejora {idC : ℕ} {c : Cliente} {s : SimulacionColas}
    (hr : relojOk s) :
    ∀ i, accAt s i ≤ accAt (enruta idC c s) i := by
  intro i
  simp only [enruta]
  split_ifs with hroute hdisp
  · have hsb : relojOk { s with clientes := s.clientes.set idC { c with tiempoEntradaCola := s.tiempoActual }, estaciones := s.estaciones.set (c.estaciones.getD c.indiceEstacionActual 0) ((s.estaciones.getD (c.estaciones.getD c.indiceEstacionActual 0) default).agregarCliente c.id s.tiempoActual) } := by
      refine reloj_set s _ (c.estaciones.getD c.indiceEstacionActual 0) _ rfl rfl hr ?_
      exact hr _
    have hm1 : accAt s i ≤ accAt { s with clientes := s.clientes.set idC { c with tiempoEntradaCola := s.tiempoActual }, estaciones := s.estaciones.set (c.estaciones.getD c.indiceEstacionActual 0) ((s.estaciones.getD (c.estaciones.getD c.indiceEstacionActual 0) default).agregarCliente c.id s.tiempoActual) } i := by
      refine mejora_set s _ (c.estaciones.getD c.indiceEstacionActual 0) _ rfl ?_ i
      exact le_refl _
    exact le_trans hm1 (iniciar_mejora hsb i)
  · refine mejora_set s _ (c.estaciones.getD c.indiceEstacionActual 0) _ rfl ?_ i
    exact le_refl _
  · exact le_refl _

theorem enruta_reloj {idC : ℕ} {c : Cliente} {s : SimulacionColas}
    (hr : relojOk s) : relojOk (enruta idC c s) := by
  simp only [enruta]
  split_ifs with hroute hdisp
  · refine iniciar_reloj ?_
    refine reloj_set s _ (c.estaciones.getD c.indiceEstacionActual 0) _ rfl rfl hr ?_
    exact hr _
  · refine reloj_set s _ (c.estaciones.getD c.indiceEstacionActual 0) _ rfl rfl hr ?_
    exact hr _
  · exact hr

theorem atiende_mejora {k : ℕ} {s : SimulacionColas} (hr : relojOk s) :
    ∀ i, accAt s i ≤ accAt (atiendeSiguiente k s) i := by
  unfold atiendeSiguiente
  split_ifs with h
  · exact iniciar_mejora hr
  · exact fun i => le_refl _

theorem procesarFin_mejora {e : Evento} {s : SimulacionColas} (hr : relojOk s) :
    ∀ i, accAt s i ≤ accAt (procesarFinServicio e s) i := by
  intro i
  rw [procesarFinServicio_eq]
  refine le_trans (@avanzaCliente_mejora e s hr i) ?_
  refine le_trans (@enruta_mejora (e.idCliente.getD 0) (clienteTras e s)
    (avanzaCliente e s) (@avanzaCliente_reloj e s hr) i) ?_
  exact @atiende_mejora (e.idEstacion.getD 0) _
    (@enruta_reloj (e.idCliente.getD 0) (clienteTras e s) (avanzaCliente e s)
      (@avanzaCliente_reloj e s hr)) i

theorem paso_acc {s : SimulacionColas} (hInv : Inv s) :
    ∀ i, accAt s i ≤ accAt (paso s) i := by
  intro i
  cases hpop : popMin s.colaEventos with
  | none => rw [paso_vacio hpop]
  | some p =>
    obtain ⟨e, rest⟩ := p
    have hte : s.tiempoActual ≤ e.tiempo :=
      (hInv.2.2.2.1 e (popMin_mem hpop)).1
    have hrA : relojOk (avanza s e rest) := by
      intro k
      exact le_trans (inv_reloj hInv k) hte
    have heq : accAt (avanza s e rest) i = accAt s i := rfl
    cases htipo : e.tipo with
    | llegada =>
      rw [paso_llegada hpop htipo]
      split_ifs with ht
      · rw [← heq]
        exact procesarLlegada_mejora hrA i
      · rw [← heq]
    | finServicio =>
      rw [paso_fin hpop htipo]
      rw [← heq]
      exact procesarFin_mejora hrA i

/-!
Conservación de campos escalares a lo largo del bucle.
-/

theorem procesarLlegada_duracion (s : SimulacionColas) :
    (procesarLlegada s).duracionSimulacion = s.duracionSimulacion := by
  rw [procesarLlegada_eq]
  have h1 : ∀ X : SimulacionColas,
      (programaLlegada X).duracionSimulacion = X.duracionSimulacion := by
    intro X
    rw [programaLlegada_spec]
    split_ifs <;> rfl
  rw [h1]
  split_ifs
  · rw [(iniciar_campos CAJAS _).2.1]; rfl
  · rfl

theorem procesarFin_duracion (e : Evento) (s : SimulacionColas) :
    (procesarFinServicio e s).duracionSimulacion = s.duracionSimulacion := by
  rw [procesarFinServicio_eq]
  have hat : ∀ k (X : SimulacionColas),
      (atiendeSiguiente k X).duracionSimulacion = X.duracionSimulacion := by
    intro k X
    unfold atiendeSiguiente
    split_ifs
    · exact (iniciar_campos _ _).2.1
    · rfl
  have hen : ∀ idC c (X : SimulacionColas),
      (enruta idC c X).duracionSimulacion = X.duracionSimulacion := by
    intro idC c X
    simp only [enruta]
    split_ifs
    · exact (iniciar_campos _ _).2.1
    · rfl
    · rfl
  rw [hat, hen]
  rfl

theorem paso_duracion (s : SimulacionColas) :
    (paso s).duracionSimulacion = s.duracionSimulacion := by
  cases hpop : popMin s.colaEventos with
  | none => rw [paso_vacio hpop]
  | some p =>
    obtain ⟨e, rest⟩ := p
    cases htipo : e.tipo with
    | llegada =>
      rw [paso_llegada hpop htipo]
      split_ifs with ht
      · rw [procesarLlegada_duracion]; rfl
      · rfl
    | finServicio =>
      rw [paso_fin hpop htipo]
      rw [procesarFin_duracion]; rfl

theorem ejecutarAux_duracion : ∀ (n : ℕ) (s : SimulacionColas),
    (ejecutarAux n s).duracionSimulacion = s.duracionSimulacion
  | 0, s => rfl
  | n + 1, s => by
    rw [ejecutarAux]
    split_ifs with hq
    · rfl
    · rw [ejecutarAux_duracion n (paso s), paso_duracion]

theorem ejecutarAux_inv {delta : ℚ} (hd : 0 ≤ delta) :
    ∀ (n : ℕ) (s : SimulacionColas), Inv s → FlujoAcotado delta s.rng →
    Inv (ejecutarAux n s)
  | 0, s, hInv, _ => hInv
  | n + 1, s, hInv, hf => by
    rw [ejecutarAux]
    split_ifs with hq
    · exact hInv
    · exact ejecutarAux_inv hd n (paso s) (paso_inv s hInv hd hf)
        (flujo_de_f (paso_f s) hf)

theorem ejecutar_campos (fuel : ℕ) (s : SimulacionColas) :
    (ejecutar fuel s).colaEventos = (ejecutarAux fuel s).colaEventos ∧
    (ejecutar fuel s).clientes = (ejecutarAux fuel s).clientes ∧
    (ejecutar fuel s).clientesCompletados = (ejecutarAux fuel s).clientesCompletados ∧
    (ejecutar fuel s).estaciones = (ejecutarAux fuel s).estaciones ∧
    (ejecutar fuel s).tiempoFinalReal = (ejecutarAux fuel s).tiempoActual ∧
    (ejecutar fuel s).duracionSimulacion = (ejecutarAux fuel s).duracionSimulacion := by
  exact ⟨rfl, rfl, rfl, rfl, rfl, rfl⟩

/-!
Suma con guarda de los bucles de `getEstadisticas`.
-/

theorem foldl_guard {α : Type _} (p : α → Prop) [DecidablePred p] (f : α → ℚ) :
    ∀ (l : List α) (a0 : ℚ), (∀ c ∈ l, p c) →
      l.foldl (fun acc c => if p c then acc + f c else acc) a0 =
        a0 + (l.map f).sum
  | [], a0, _ => by simp
  | x :: l, a0, h => by
    have hx : p x := h x (List.mem_cons_self x l)
    simp only [List.foldl_cons, if_pos hx, List.map_cons, List.sum_cons]
    rw [foldl_guard p f l (a0 + f x) (fun c hc => h c (List.mem_cons_of_mem x hc))]
    ring

/-!
Conservación de los campos de identidad del cliente a través de
`iniciarServicio`, y contabilidad exacta de la espera en `sirve`.
-/

theorem sirve_entrada (idE idC : ℕ) (resto : List ℕ) (j : ℕ)
    (s : SimulacionColas) (i : ℕ) :
    ((sirve idE idC resto j s).clientes.getD i default).tiempoEntradaCola =
      (s.clientes.getD i default).tiempoEntradaCola := by
  simp only [sirve]
  by_cases hic : idC < s.clientes.length
  · by_cases hii : idC = i
    · subst hii
      rw [getD_set_self _ _ _ _ hic]
    · rw [getD_set_ne _ _ _ hii]
  · rw [List.set_eq_of_length_le (le_of_not_lt hic)]

theorem iniciar_preserva (idE : ℕ) (s : SimulacionColas) (i : ℕ) :
    ((iniciarServicio idE s).clientes.getD i default).indiceEstacionActual =
      (s.clientes.getD i default).indiceEstacionActual ∧
    ((iniciarServicio idE s).clientes.getD i default).estaciones =
      (s.clientes.getD i default).estaciones ∧
    ((iniciarServicio idE s).clientes.getD i default).tiempoEntradaCola =
      (s.clientes.getD i default).tiempoEntradaCola ∧
    ((iniciarServicio idE s).clientes.getD i default).tiempoLlegada =
      (s.clientes.getD i default).tiempoLlegada := by
  rcases iniciar_spec idE s with h | ⟨idC, resto, j, hq, hfj, h⟩
  · rw [h]; exact ⟨rfl, rfl, rfl, rfl⟩
  · rw [h]
    obtain ⟨ha, hb, hc⟩ := sirve_preserva_cliente idE idC resto j s i
    exact ⟨ha, hb, sirve_entrada idE idC resto j s i, hc⟩

theorem iniciar_sirve (idE idC : ℕ) (resto : List ℕ) (j : ℕ)
    (s : SimulacionColas)
    (hq : (s.estaciones.getD idE default).colaEspera = idC :: resto)
    (hfj : (s.estaciones.getD idE default).servidorOcupado.findIdx?
      (fun ocupado => !ocupado) = some j) :
    iniciarServicio idE s = sirve idE idC resto j s := by
  rcases Estacion.iniciarServicio_spec (s.estaciones.getD idE default)
      s.tiempoActual with hcase | ⟨idC', resto', j', hq', hfj', hcase⟩
  · exfalso
    unfold Estacion.iniciarServicio at hcase
    rw [hq, hfj] at hcase
    simp at hcase
  · rw [hq'] at hq
    injection hq with hidC hresto
    rw [hfj'] at hfj
    injection hfj with hj
    subst hidC
    subst hresto
    subst hj
    unfold iniciarServicio
    simp only [hcase]
    rfl

theorem sirve_espera (idE idC : ℕ) (resto : List ℕ) (j : ℕ)
    (s : SimulacionColas) (hic : idC < s.clientes.length) :
    ((sirve idE idC resto j s).clientes.getD idC default).tiempoEsperaTotal =
      (s.clientes.getD idC default).tiempoEsperaTotal +
        (s.tiempoActual - (s.clientes.getD idC default).tiempoEntradaCola) := by
  simp only [sirve]
  rw [getD_set_self _ _ _ _ hic]

/-!
Monotonía del índice de progreso de ruta.
-/

/-- Índice de progreso de ruta del cliente i en el estado s. -/
def idxAt (s : SimulacionColas) (i : ℕ) : ℕ :=
  (s.clientes.getD i default).indiceEstacionActual

theorem getD_set_idx (l : List Cliente) (idC : ℕ) (c2 : Cliente)
    (h : idC < l.length →
      c2.indiceEstacionActual = (l.getD idC default).indiceEstacionActual)
    (i : ℕ) :
    ((l.set idC c2).getD i default).indiceEstacionActual =
      (l.getD i default).indiceEstacionActual := by
  by_cases hic : idC < l.length
  · by_cases hii : idC = i
    · subst hii
      rw [getD_set_self _ _ _ _ hic, h hic]
    · rw [getD_set_ne _ _ _ hii]
  · rw [List.set_eq_of_length_le (le_of_not_lt hic)]

theorem crea_idx (s : SimulacionColas) (i : ℕ) :
    idxAt (creaCliente s) i = idxAt s i := by
  unfold idxAt
  rw [creaCliente_spec]
  show ((s.clientes ++ [clienteNuevo s]).getD i default).indiceEstacionActual = _
  rcases lt_trichotomy i s.clientes.length with h | h | h
  · rw [getD_append_left _ _ _ _ h]
  · rw [h, getD_append_self, List.getD_eq_default _ _ (le_refl _)]
    rfl
  · rw [List.getD_eq_default _ _ (by simp; omega),
      List.getD_eq_default _ _ (le_of_lt h)]

theorem programa_idx (s : SimulacionColas) (i : ℕ) :
    idxAt (programaLlegada s) i = idxAt s i := by
  unfold idxAt
  rw [programaLlegada_spec]
  split_ifs <;> rfl

theorem iniciar_idx (idE : ℕ) (s : SimulacionColas) (i : ℕ) :
    idxAt (iniciarServicio idE s) i = idxAt s i :=
  (iniciar_preserva idE s i).1

theorem procesarLlegada_idx (s : SimulacionColas) (i : ℕ) :
    idxAt (procesarLlegada s) i = idxAt s i := by
  rw [procesarLlegada_eq, programa_idx]
  split_ifs
  · rw [iniciar_idx, crea_idx]
  · rw [crea_idx]

theorem avanzaCliente_idx (e : Evento) (s : SimulacionColas) (i : ℕ) :
    idxAt s i ≤ idxAt (avanzaCliente e s) i := by
  unfold idxAt
  show _ ≤ ((s.clientes.set (e.idCliente.getD 0)
    (clienteTras e s)).getD i default).indiceEstacionActual
  by_cases hic : e.idCliente.getD 0 < s.clientes.length
  · by_cases hii : e.idCliente.getD 0 = i
    · subst hii
      rw [getD_set_self _ _ _ _ hic]
      have hct : (clienteTras e s).indiceEstacionActual =
          (s.clientes.getD (e.idCliente.getD 0) default).indiceEstacionActual
            + 1 := rfl
      omega
    · rw [getD_set_ne _ _ _ hii]
  · rw [List.set_eq_of_length_le (le_of_not_lt hic)]

theorem atiende_idx (k : ℕ) (s : SimulacionColas) (i : ℕ) :
    idxAt (atiendeSiguiente k s) i = idxAt s i := by
  unfold atiendeSiguiente
  split_ifs with h
  · exact iniciar_idx k s i
  · rfl

theorem enruta_idx (e : Evento) (s : SimulacionColas) (i : ℕ) :
    idxAt (enruta (e.idCliente.getD 0) (clienteTras e s)
      (avanzaCliente e s)) i = idxAt (avanzaCliente e s) i := by
  have hlen : (avanzaCliente e s).clientes.length = s.clientes.length :=
    (avanzaCliente_campos e s).2.2.2.2.2
  have hval : ∀ c2 : Cliente,
      c2.indiceEstacionActual = (clienteTras e s).indiceEstacionActual →
      e.idCliente.getD 0 < (avanzaCliente e s).clientes.length →
      c2.indiceEstacionActual = ((avanzaCliente e s).clientes.getD
        (e.idCliente.getD 0) default).indiceEstacionActual := by
    intro c2 hc2 hlt
    rw [hlen] at hlt
    rw [avanzaCliente_getD e s hlt, hc2]
  simp only [enruta]
  split_ifs with hroute hdisp
  · rw [iniciar_idx]
    unfold idxAt
    refine getD_set_idx _ _ _ ?_ i
    intro hlt
    rw [hlen] at hlt
    rw [avanzaCliente_getD e s hlt]
  · unfold idxAt
    refine getD_set_idx _ _ _ ?_ i
    intro hlt
    rw [hlen] at hlt
    rw [avanzaCliente_getD e s hlt]
  · rfl

theorem paso_idx (s : SimulacionColas) (i : ℕ) : idxAt s i ≤ idxAt (paso s) i := by
  cases hpop : popMin s.colaEventos with
  | none => rw [paso_vacio hpop]
  | some p =>
    obtain ⟨e, rest⟩ := p
    have heqA : idxAt (avanza s e rest) i = idxAt s i := rfl
    cases htipo : e.tipo with
    | llegada =>
      rw [paso_llegada hpop htipo]
      split_ifs with ht
      · rw [procesarLlegada_idx, heqA]
      · rw [heqA]
    | finServicio =>
      rw [paso_fin hpop htipo, procesarFinServicio_eq, atiende_idx, enruta_idx,
        ← heqA]
      exact avanzaCliente_idx e (avanza s e rest) i

theorem ejecutarAux_idx : ∀ (n : ℕ) (s : SimulacionColas) (i : ℕ),
    idxAt s i ≤ idxAt (ejecutarAux n s) i
  | 0, s, i => le_refl _
  | n + 1, s, i => by
    rw [ejecutarAux]
    split_ifs with hq
    · exact le_refl _
    · exact le_trans (paso_idx s i) (ejecutarAux_idx n (paso s) i)

/-!
Exactitud del conjunto de clientes completados.
-/

theorem enruta_completados_exacto (idC : ℕ) (c : Cliente)
    (s : SimulacionColas) :
    (c.indiceEstacionActual < c.estaciones.length ∧
      (enruta idC c s).clientesCompletados = s.clientesCompletados) ∨
    (c.estaciones.length ≤ c.indiceEstacionActual ∧
      (enruta idC c s).clientesCompletados = s.clientesCompletados ++ [c]) := by
  simp only [enruta]
  split_ifs with hroute hdisp
  · exact Or.inl ⟨hroute, (iniciar_campos _ _).2.2.2.2.1⟩
  · exact Or.inl ⟨hroute, rfl⟩
  · exact Or.inr ⟨le_of_not_lt hroute, rfl⟩

theorem atiende_completados (k : ℕ) (s : SimulacionColas) :
    (atiendeSiguiente k s).clientesCompletados = s.clientesCompletados := by
  unfold atiendeSiguiente
  split_ifs with h
  · exact (iniciar_campos _ _).2.2.2.2.1
  · rfl

theorem procesarLlegada_completados (s : SimulacionColas) :
    (procesarLlegada s).clientesCompletados = s.clientesCompletados := by
  rw [procesarLlegada_eq]
  have hprog : ∀ X : SimulacionColas,
      (programaLlegada X).clientesCompletados = X.clientesCompletados := by
    intro X
    rw [programaLlegada_spec]
    split_ifs <;> rfl
  rw [hprog]
  split_ifs
  · rw [(iniciar_campos CAJAS _).2.2.2.2.1]; rfl
  · rfl

theorem procesarFin_completados (e : Evento) (s : SimulacionColas)
    (hle : (clienteTras e s).indiceEstacionActual ≤
      (clienteTras e s).estaciones.length) :
    (procesarFinServicio e s).clientesCompletados = s.clientesCompletados ∨
    ((procesarFinServicio e s).clientesCompletados =
        s.clientesCompletados ++ [clienteTras e s] ∧
      (clienteTras e s).indiceEstacionActual =
        (clienteTras e s).estaciones.length) := by
  rw [procesarFinServicio_eq, atiende_completados]
  rcases enruta_completados_exacto (e.idCliente.getD 0) (clienteTras e s)
      (avanzaCliente e s) with ⟨hr, hc⟩ | ⟨hr, hc⟩
  · left
    rw [hc, (avanzaCliente_campos e s).2.2.2.2.1]
  · right
    rw [hc, (avanzaCliente_campos e s).2.2.2.2.1]
    exact ⟨rfl, le_antisymm hle hr⟩

/-!
Conservación del campo de probabilidades de ruteo.
-/

theorem procesarLlegada_prob (s : SimulacionColas) :
    (procesarLlegada s).probabilidadesEstaciones = s.probabilidadesEstaciones := by
  rw [procesarLlegada_eq]
  have h1 : ∀ X : SimulacionColas,
      (programaLlegada X).probabilidadesEstaciones =
        X.probabilidadesEstaciones := by
    intro X
    rw [programaLlegada_spec]
    split_ifs <;> rfl
  rw [h1]
  split_ifs
  · rw [(iniciar_campos CAJAS _).2.2.2.1]; rfl
  · rfl

theorem procesarFin_prob (e : Evento) (s : SimulacionColas) :
    (procesarFinServicio e s).probabilidadesEstaciones =
      s.probabilidadesEstaciones := by
  rw [procesarFinServicio_eq]
  have hat : ∀ k (X : SimulacionColas),
      (atiendeSiguiente k X).probabilidadesEstaciones =
        X.probabilidadesEstaciones := by
    intro k X
    unfold atiendeSiguiente
    split_ifs
    · exact (iniciar_campos _ _).2.2.2.1
    · rfl
  have hen : ∀ idC c (X : SimulacionColas),
      (enruta idC c X).probabilidadesEstaciones = X.probabilidadesEstaciones := by
    intro idC c X
    simp only [enruta]
    split_ifs
    · exact (iniciar_campos _ _).2.2.2.1
    · rfl
    · rfl
  rw [hat, hen]
  rfl

theorem paso_prob (s : SimulacionColas) :
    (paso s).probabilidadesEstaciones = s.probabilidadesEstaciones := by
  cases hpop : popMin s.colaEventos with
  | none => rw [paso_vacio hpop]
  | some p =>
    obtain ⟨e, rest⟩ := p
    cases htipo : e.tipo with
    | llegada =>
      rw [paso_llegada hpop htipo]
      split_ifs with ht
      · rw [procesarLlegada_prob]; rfl
      · rfl
    | finServicio =>
      rw [paso_fin hpop htipo]
      rw [procesarFin_prob]; rfl

/-!
Una estación de probabilidad cero nunca es tocada por la simulación.
-/

/-- La estación k no aparece en ninguna ruta, ningún evento pendiente la
referencia y su acumulador de ocupación es cero. -/
def intocada (k : ℕ) (s : SimulacionColas) : Prop :=
  (∀ c ∈ s.clientes, k ∉ c.estaciones) ∧
  (∀ c ∈ s.clientesCompletados, k ∉ c.estaciones) ∧
  (∀ e ∈ s.colaEventos, e.idEstacion ≠ some k) ∧
  (s.estaciones.getD k default).tiempoTotalOcupado = 0

theorem sirve_intocada {k : ℕ} (idE idC : ℕ) (resto : List ℕ) (j : ℕ)
    (s : SimulacionColas) (hkE : idE ≠ k) (h : intocada k s) :
    intocada k (sirve idE idC resto j s) := by
  obtain ⟨h1, h2, h3, h4⟩ := h
  refine ⟨?_, h2, ?_, ?_⟩
  · intro c hc
    simp only [sirve] at hc
    rcases mem_set_strong hc with hm | ⟨hlen, heq⟩
    · exact h1 c hm
    · subst heq
      show k ∉ (s.clientes.getD idC default).estaciones
      exact h1 _ (getD_mem _ _ _ hlen)
  · intro e he
    simp only [sirve] at he
    rcases List.mem_append.mp he with hm | hm
    · exact h3 e hm
    · rw [List.mem_singleton] at hm
      subst hm
      intro hcon
      injection hcon with hcon
      exact hkE hcon
  · simp only [sirve]
    show ((s.estaciones.set idE _).getD k default).tiempoTotalOcupado = 0
    rw [getD_set_ne _ _ _ hkE]
    exact h4

theorem iniciar_intocada {k : ℕ} (idE : ℕ) (s : SimulacionColas)
    (hkE : idE ≠ k) (h : intocada k s) : intocada k (iniciarServicio idE s) := by
  rcases iniciar_spec idE s with heq | ⟨idC, resto, j, hq, hfj, heq⟩
  · rw [heq]; exact h
  · rw [heq]; exact sirve_intocada idE idC resto j s hkE h

theorem ruta_sin_k {k : ℕ} (s : SimulacionColas) (hk1 : 1 ≤ k)
    (hp : s.probabilidadesEstaciones.getD k 0 = 0)
    (hpos : FlujoAcotado 0 s.rng) : k ∉ rutaDe s := by
  by_cases hk4 : k ≤ 4
  · rw [ruta_mem_opcional s k hk1 hk4]
    unfold visita
    rw [hp]
    simp only [decide_eq_true_eq]
    intro hcon
    exact absurd hcon (not_lt.mpr (hpos _))
  · intro hmem
    have := ruta_mem hmem
    unfold NUM_EST at this
    omega

theorem crea_intocada {k : ℕ} (s : SimulacionColas) (hk1 : 1 ≤ k)
    (hp : s.probabilidadesEstaciones.getD k 0 = 0)
    (hpos : FlujoAcotado 0 s.rng) (h : intocada k s) :
    intocada k (creaCliente s) := by
  obtain ⟨h1, h2, h3, h4⟩ := h
  rw [creaCliente_spec]
  refine ⟨?_, h2, h3, ?_⟩
  · intro c hc
    rcases List.mem_append.mp hc with hm | hm
    · exact h1 c hm
    · rw [List.mem_singleton] at hm
      subst hm
      show k ∉ rutaDe s
      exact ruta_sin_k s hk1 hp hpos
  · show ((s.estaciones.set CAJAS _).getD k default).tiempoTotalOcupado = 0
    rw [getD_set_ne _ _ _ (by unfold CAJAS; omega)]
    exact h4

theorem programa_intocada {k : ℕ} (s : SimulacionColas) (h : intocada k s) :
    intocada k (programaLlegada s) := by
  obtain ⟨h1, h2, h3, h4⟩ := h
  rw [programaLlegada_spec]
  split_ifs with hlt
  · refine ⟨h1, h2, ?_, h4⟩
    intro e he
    rcases List.mem_append.mp he with hm | hm
    · exact h3 e hm
    · rw [List.mem_singleton] at hm
      subst hm
      intro hcon
      cases hcon
  · exact ⟨h1, h2, h3, h4⟩

theorem procesarLlegada_intocada {k : ℕ} (s : SimulacionColas) (hk1 : 1 ≤ k)
    (hp : s.probabilidadesEstaciones.getD k 0 = 0)
    (hpos : FlujoAcotado 0 s.rng) (h : intocada k s) :
    intocada k (procesarLlegada s) := by
  rw [procesarLlegada_eq]
  refine programa_intocada _ ?_
  split_ifs
  · exact iniciar_intocada CAJAS _ (by unfold CAJAS; omega)
      (crea_intocada s hk1 hp hpos h)
  · exact crea_intocada s hk1 hp hpos h

theorem avanzaCliente_intocada {k : ℕ} (e : Evento) (s : SimulacionColas)
    (he : e.idEstacion.getD 0 ≠ k) (h : intocada k s) :
    intocada k (avanzaCliente e s) := by
  obtain ⟨h1, h2, h3, h4⟩ := h
  refine ⟨?_, h2, h3, ?_⟩
  · intro c hc
    simp only [avanzaCliente] at hc
    rcases mem_set_strong hc with hm | ⟨hlen, heq⟩
    · exact h1 c hm
    · subst heq
      show k ∉ (s.clientes.getD (e.idCliente.getD 0) default).estaciones
      exact h1 _ (getD_mem _ _ _ hlen)
  · simp only [avanzaCliente]
    show ((s.estaciones.set (e.idEstacion.getD 0) _).getD k
      default).tiempoTotalOcupado = 0
    rw [getD_set_ne _ _ _ he]
    exact h4

theorem clienteTras_sin_k {k : ℕ} (e : Evento) (s : SimulacionColas)
    (h1 : ∀ c ∈ s.clientes, k ∉ c.estaciones) :
    k ∉ (clienteTras e s).estaciones := by
  show k ∉ (s.clientes.getD (e.idCliente.getD 0) default).estaciones
  by_cases hlt : e.idCliente.getD 0 < s.clientes.length
  · exact h1 _ (getD_mem _ _ _ hlt)
  · rw [List.getD_eq_default _ _ (le_of_not_lt hlt)]
    intro hcon
    cases hcon

theorem enruta_intocada {k : ℕ} (idC : ℕ) (c : Cliente) (s : SimulacionColas)
    (hc : k ∉ c.estaciones) (h : intocada k s) :
    intocada k (enruta idC c s) := by
  obtain ⟨h1, h2, h3, h4⟩ := h
  simp only [enruta]
  split_ifs with hroute hdisp
  · have hsig : c.estaciones.getD c.indiceEstacionActual 0 ≠ k := by
      intro hcon
      exact hc (hcon ▸ getD_mem _ _ _ hroute)
    refine iniciar_intocada _ _ hsig ⟨?_, h2, h3, ?_⟩
    · intro c3 hc3
      rcases mem_set_strong hc3 with hm | ⟨hlen, heq⟩
      · exact h1 c3 hm
      · subst heq
        exact hc
    · show ((s.estaciones.set (c.estaciones.getD c.indiceEstacionActual 0)
        _).getD k default).tiempoTotalOcupado = 0
      rw [getD_set_ne _ _ _ hsig]
      exact h4
  · have hsig : c.estaciones.getD c.indiceEstacionActual 0 ≠ k := by
      intro hcon
      exact hc (hcon ▸ getD_mem _ _ _ hroute)
    refine ⟨?_, h2, h3, ?_⟩
    · intro c3 hc3
      rcases mem_set_strong hc3 with hm | ⟨hlen, heq⟩
      · exact h1 c3 hm
      · subst heq
        exact hc
    · show ((s.estaciones.set (c.estaciones.getD c.indiceEstacionActual 0)
        _).getD k default).tiempoTotalOcupado = 0
      rw [getD_set_ne _ _ _ hsig]
      exact h4
  · refine ⟨h1, ?_, h3, h4⟩
    intro c3 hc3
    rcases List.mem_append.mp hc3 with hm | hm
    · exact h2 c3 hm
    · rw [List.mem_singleton] at hm
      subst hm
      exact hc

theorem atiende_intocada {k : ℕ} (idE : ℕ) (s : SimulacionColas)
    (hkE : idE ≠ k) (h : intocada k s) :
    intocada k (atiendeSiguiente idE s) := by
  unfold atiendeSiguiente
  split_ifs
  · exact iniciar_intocada idE s hkE h
  · exact h

theorem procesarFin_intocada {k : ℕ} (e : Evento) (s : SimulacionColas)
    (hk1 : 1 ≤ k) (he : e.idEstacion ≠ some k) (h : intocada k s) :
    intocada k (procesarFinServicio e s) := by
  have hids : e.idEstacion.getD 0 ≠ k := by
    cases hcase : e.idEstacion with
    | none => simp only [Option.getD]; omega
    | some m =>
      rw [hcase] at he
      simp only [Option.getD]
      intro hcon
      exact he (by rw [hcon])
  rw [procesarFinServicio_eq]
  refine atiende_intocada _ _ hids ?_
  refine enruta_intocada _ _ _ (clienteTras_sin_k e s h.1) ?_
  exact avanzaCliente_intocada e s hids h

theorem paso_intocada {k : ℕ} (s : SimulacionColas) (hk1 : 1 ≤ k)
    (hp : s.probabilidadesEstaciones.getD k 0 = 0)
    (hpos : FlujoAcotado 0 s.rng) (h : intocada k s) :
    intocada k (paso s) := by
  cases hpop : popMin s.colaEventos with
  | none => rw [paso_vacio hpop]; exact h
  | some p =>
    obtain ⟨e, rest⟩ := p
    have hsub : intocada k (avanza s e rest) := by
      obtain ⟨h1, h2, h3, h4⟩ := h
      refine ⟨h1, h2, ?_, h4⟩
      intro e2 he2
      refine h3 e2 ?_
      exact (popMin_perm s.colaEventos e rest hpop).symm.mem_iff.mp
        (List.mem_cons_of_mem e he2)
    cases htipo : e.tipo with
    | llegada =>
      rw [paso_llegada hpop htipo]
      split_ifs with ht
      · exact procesarLlegada_intocada _ hk1 hp hpos hsub
      · exact hsub
    | finServicio =>
      rw [paso_fin hpop htipo]
      exact procesarFin_intocada e _ hk1 (h.2.2.1 e (popMin_mem hpop)) hsub

theorem ejecutarAux_intocada {k : ℕ} (hk1 : 1 ≤ k) :
    ∀ (n : ℕ) (s : SimulacionColas),
    s.probabilidadesEstaciones.getD k 0 = 0 → FlujoAcotado 0 s.rng →
    intocada k s → intocada k (ejecutarAux n s)
  | 0, s, _, _, h => h
  | n + 1, s, hp, hpos, h => by
    rw [ejecutarAux]
    split_ifs with hq
    · exact h
    · refine ejecutarAux_intocada hk1 n (paso s) ?_ ?_ ?_
      · rw [paso_prob]; exact hp
      · exact flujo_de_f (paso_f s) hpos
      · exact paso_intocada s hk1 hp hpos h

theorem util_cero {st : Estacion} (h : st.tiempoTotalOcupado = 0) (q : ℚ) :
    st.getUtilizacion q = 0 := by
  unfold Estacion.getUtilizacion
  split_ifs with hcond
  · rfl
  · rw [h, zero_div]

/-!
Escenario concreto reutilizado por los testigos: un flujo que produce una
única llegada en t = 1 con ruta [CAJAS] y servicio de 480 minutos.
-/

def genUno : GeneradorAleatorio := ⟨fun n => if n = 0 then 1 else 480, 0⟩

def cfgUnos : ConfiguracionServidores := ⟨1, 1, 1, 1, 1⟩

def simIni : SimulacionColas := inicializar (mkSimulacion 480 3 genUno) cfgUnos

theorem flujoGenUno : FlujoAcotado 1 genUno := by
  intro n
  show (1 : ℚ) ≤ if n = 0 then 1 else 480
  split_ifs <;> norm_num

theorem invSimIni : Inv simIni :=
  inv_inicial 480 3 genUno cfgUnos (by norm_num) flujoGenUno

/-!
Los enunciados de las diez afirmaciones de la especificación.
-/

/-- C10: el generador binomial de tiempos de servicio trunca su resultado por
abajo en 1: `tiempoServicioBinom` devuelve `max 1 valor` y por tanto un valor
mayor o igual que 1, de modo que el tiempo de servicio de la estación de
postres (que usa Binomial(5, 0.6)) nunca es 0. -/
theorem c10_binom_minimo (g : GeneradorAleatorio) (n : ℕ) (p : ℚ) :
    (g.tiempoServicioBinom n p).1 = max 1 ⌊g.f g.pos⌋ ∧
    1 ≤ (g.tiempoServicioBinom n p).1 ∧
    (getTiempoServicio g POSTRES).1 = ((g.tiempoServicioBinom 5 (3/5)).1 : ℚ) ∧
    1 ≤ (getTiempoServicio g POSTRES).1 := by
  refine ⟨rfl, le_max_left _ _, rfl, ?_⟩
  show (1 : ℚ) ≤ ((max 1 ⌊g.f g.pos⌋ : ℤ) : ℚ)
  exact_mod_cast le_max_left 1 ⌊g.f g.pos⌋

/-- C7: `getEstadisticas` nunca falla y representa los estados degenerados con
ceros: en todo estado devuelve `totalClientes` igual al número actual de
clientes completados, devuelve todos los promedios y la varianza en 0 cuando
ese número es 0, y un vector de utilización de longitud 5. -/
theorem c7_estadisticas_degeneradas (s : SimulacionColas) :
    (getEstadisticas s).totalClientes = s.clientesCompletados.length ∧
    (s.clientesCompletados.length = 0 →
      (getEstadisticas s).tiempoEsperaPromedio = 0 ∧
      (getEstadisticas s).varianzaTiempoEspera = 0 ∧
      (getEstadisticas s).tiempoSistemaPromedio = 0 ∧
      (getEstadisticas s).utilizacionEstaciones = List.replicate NUM_EST 0) ∧
    (getEstadisticas s).utilizacionEstaciones.length = NUM_EST := by
  by_cases h : s.clientesCompletados.length = 0
  · simp only [getEstadisticas]
    rw [if_pos h]
    exact ⟨h.symm, fun _ => ⟨rfl, rfl, rfl, rfl⟩, by simp⟩
  · simp only [getEstadisticas]
    rw [if_neg h]
    refine ⟨rfl, fun hc => absurd hc h, ?_⟩
    simp

theorem c7_estadisticas_degeneradas_testigo :
    (getEstadisticas (mkSimulacion 480 3 genUno)).totalClientes =
      (mkSimulacion 480 3 genUno).clientesCompletados.length ∧
    ((mkSimulacion 480 3 genUno).clientesCompletados.length = 0 →
      (getEstadisticas (mkSimulacion 480 3 genUno)).tiempoEsperaPromedio = 0 ∧
      (getEstadisticas (mkSimulacion 480 3 genUno)).varianzaTiempoEspera = 0 ∧
      (getEstadisticas (mkSimulacion 480 3 genUno)).tiempoSistemaPromedio = 0 ∧
      (getEstadisticas (mkSimulacion 480 3 genUno)).utilizacionEstaciones =
        List.replicate NUM_EST 0) ∧
    (getEstadisticas (mkSimulacion 480 3 genUno)).utilizacionEstaciones.length =
      NUM_EST :=
  c7_estadisticas_degeneradas (mkSimulacion 480 3 genUno)

/-- C6: determinismo: dos instancias del motor construidas con parámetros
idénticos (configuración, horizonte, tasa de llegadas y flujo aleatorio),
inicializadas y ejecutadas, producen estadísticas idénticas campo a campo. -/
theorem c6_determinismo (cfg : ConfiguracionServidores) (dur lam : ℚ)
    (g : GeneradorAleatorio) (fuel : ℕ) (s1 s2 : SimulacionColas)
    (h1 : s1 = ejecutar fuel (inicializar (mkSimulacion dur lam g) cfg))
    (h2 : s2 = ejecutar fuel (inicializar (mkSimulacion dur lam g) cfg)) :
    getEstadisticas s1 = getEstadisticas s2 ∧
    (getEstadisticas s1).totalClientes = (getEstadisticas s2).totalClientes ∧
    (getEstadisticas s1).tiempoEsperaPromedio =
      (getEstadisticas s2).tiempoEsperaPromedio ∧
    (getEstadisticas s1).varianzaTiempoEspera =
      (getEstadisticas s2).varianzaTiempoEspera ∧
    (getEstadisticas s1).tiempoSistemaPromedio =
      (getEstadisticas s2).tiempoSistemaPromedio ∧
    (getEstadisticas s1).utilizacionEstaciones =
      (getEstadisticas s2).utilizacionEstaciones := by
  subst h1
  subst h2
  exact ⟨rfl, rfl, rfl, rfl, rfl, rfl⟩

theorem c6_determinismo_testigo :
    ejecutar 5 simIni = ejecutar 5 (inicializar (mkSimulacion 480 3 genUno)
      cfgUnos) ∧
    getEstadisticas (ejecutar 5 simIni) = getEstadisticas (ejecutar 5 simIni) := by
  refine ⟨rfl, ?_⟩
  exact (c6_determinismo cfgUnos 480 3 genUno 5 (ejecutar 5 simIni)
    (ejecutar 5 simIni) rfl rfl).1

/-- C8 (contraejemplo): la afirmación dice que toda configuración inválida
(contadores de servidores en cero, tasa de llegadas no positiva) hace fallar
la construcción o inicialización con un error de configuración.  El código no
valida nada: con cero servidores en todas las estaciones y tasa −1 el motor se
inicializa con normalidad, conserva los contadores en cero sin ajustarlos y
programa la primera llegada. -/
theorem c8_contraejemplo :
    (inicializar (mkSimulacion 480 (-1) genUno) ⟨0, 0, 0, 0, 0⟩).estaciones.map
        (fun st => st.numServidores) = [0, 0, 0, 0, 0] ∧
    (inicializar (mkSimulacion 480 (-1) genUno)
        ⟨0, 0, 0, 0, 0⟩).colaEventos.length = 1 ∧
    (inicializar (mkSimulacion 480 (-1) genUno) ⟨0, 0, 0, 0, 0⟩).tasaLlegada =
      -1 := by
  exact ⟨rfl, rfl, rfl⟩

/-- C8 (enunciado corregido): `inicializar` no realiza validación alguna: para
cualquier entrada, válida o no, la inicialización siempre tiene éxito, conserva
los contadores de servidores solicitados tal cual (sin ajuste) y la tasa de
llegadas recibida, y deja programada exactamente la primera llegada. -/
theorem c8_sin_validacion (dur lam : ℚ) (g : GeneradorAleatorio)
    (cfg : ConfiguracionServidores) :
    (inicializar (mkSimulacion dur lam g) cfg).estaciones.map
        (fun st => st.numServidores) =
      [cfg.cajas, cfg.refrescos, cfg.freidora, cfg.postres, cfg.pollo] ∧
    (inicializar (mkSimulacion dur lam g) cfg).colaEventos =
      [⟨g.f g.pos, TipoEvento.llegada, none, none⟩] ∧
    (inicializar (mkSimulacion dur lam g) cfg).clientes = [] ∧
    (inicializar (mkSimulacion dur lam g) cfg).tasaLlegada = lam := by
  exact ⟨rfl, rfl, rfl, rfl⟩

/-- C3: la utilización de una estación es el tiempo acumulado de servidores
ocupados dividido por (número de servidores × tiempo transcurrido), con valor
0 en tiempo 0; el acumulador se actualiza en los cambios de ocupación sumando
`ocupados × (ahora − último cambio)` y nunca decrece a lo largo de una
iteración del bucle de eventos en un estado alcanzable. -/
theorem c3_utilizacion (st : Estacion) (t u : ℚ) (s : SimulacionColas)
    (i : ℕ) (hInv : Inv s) :
    st.getUtilizacion t = st.tiempoTotalOcupado / (st.numServidores * t) ∧
    st.getUtilizacion 0 = 0 ∧
    (st.actualizarTiempoOcupado u).tiempoTotalOcupado =
      st.tiempoTotalOcupado +
        (st.servidorOcupado.count true : ℚ) * (u - st.tiempoUltimoCambio) ∧
    (st.actualizarTiempoOcupado u).tiempoUltimoCambio = u ∧
    accAt s i ≤ accAt (paso s) i := by
  refine ⟨?_, ?_, (actualizar_acumulador st u).1, (actualizar_acumulador st u).2,
    paso_acc hInv i⟩
  · unfold Estacion.getUtilizacion
    split_ifs with h
    · rcases h with h | h
      · rw [h, mul_zero, div_zero]
      · rw [h]
        push_cast
        rw [zero_mul, div_zero]
    · rfl
  · unfold Estacion.getUtilizacion
    simp

theorem c3_utilizacion_testigo :
    Inv simIni ∧
    ((mkEstacion 0 1).getUtilizacion 2 =
      (mkEstacion 0 1).tiempoTotalOcupado / ((mkEstacion 0 1).numServidores * 2) ∧
    (mkEstacion 0 1).getUtilizacion 0 = 0 ∧
    ((mkEstacion 0 1).actualizarTiempoOcupado 3).tiempoTotalOcupado =
      (mkEstacion 0 1).tiempoTotalOcupado +
        ((mkEstacion 0 1).servidorOcupado.count true : ℚ) *
          (3 - (mkEstacion 0 1).tiempoUltimoCambio) ∧
    ((mkEstacion 0 1).actualizarTiempoOcupado 3).tiempoUltimoCambio = 3 ∧
    accAt simIni 0 ≤ accAt (paso simIni) 0) :=
  ⟨invSimIni, c3_utilizacion (mkEstacion 0 1) 2 3 simIni 0 invSimIni⟩

/-!
Tiempo de entrada en cola en cada etapa, para C5.
-/

theorem programa_clientes (s : SimulacionColas) :
    (programaLlegada s).clientes = s.clientes := by
  rw [programaLlegada_spec]
  split_ifs <;> rfl

theorem atiende_entrada (k : ℕ) (s : SimulacionColas) (i : ℕ) :
    ((atiendeSiguiente k s).clientes.getD i default).tiempoEntradaCola =
      (s.clientes.getD i default).tiempoEntradaCola := by
  unfold atiendeSiguiente
  split_ifs with h
  · exact (iniciar_preserva k s i).2.2.1
  · rfl

theorem enruta_entrada (idC : ℕ) (c : Cliente) (s : SimulacionColas)
    (hroute : c.indiceEstacionActual < c.estaciones.length)
    (hlt : idC < s.clientes.length) :
    ((enruta idC c s).clientes.getD idC default).tiempoEntradaCola =
      s.tiempoActual := by
  simp only [enruta]
  rw [if_pos hroute]
  split_ifs with hdisp
  · rw [(iniciar_preserva _ _ idC).2.2.1]
    show ((s.clientes.set idC { c with tiempoEntradaCola := s.tiempoActual }).getD idC default).tiempoEntradaCola = s.tiempoActual
    rw [getD_set_self _ _ _ _ hlt]
  · show ((s.clientes.set idC { c with tiempoEntradaCola := s.tiempoActual }).getD idC default).tiempoEntradaCola = s.tiempoActual
    rw [getD_set_self _ _ _ _ hlt]

/-- Estados concretos para los testigos de C5 y C9. -/
def simFin : SimulacionColas :=
  { rng := genUno, clientes := [⟨0, 1, 0, 0, [0, 1], 1, 0, 1⟩],
    tiempoActual := 9 }

def evFin : Evento := ⟨9, TipoEvento.finServicio, some 0, some 0⟩

def simCola : SimulacionColas :=
  { rng := genUno, estaciones := [⟨0, 1, [0], [false], 0, 0, 0⟩],
    clientes := [⟨0, 2, 0, 0, [0], 1, 0, 2⟩], tiempoActual := 5 }

/-- C5: contabilidad de la espera por estación: al iniciar un servicio, la
espera abonada es el reloj menos el tiempo de entrada en la cola de esa
estación; ese tiempo de entrada es el reloj de llegada al sistema para la
primera estación y el reloj del fin de servicio anterior para las siguientes,
nunca el tiempo de llegada original. -/
theorem c5_espera_por_estacion :
    (∀ s : SimulacionColas,
      ((procesarLlegada s).clientes.getD s.clientes.length
        default).tiempoEntradaCola = s.tiempoActual ∧
      ((procesarLlegada s).clientes.getD s.clientes.length
        default).tiempoLlegada = s.tiempoActual) ∧
    (∀ (e : Evento) (s : SimulacionColas),
      e.idCliente.getD 0 < s.clientes.length →
      (clienteTras e s).indiceEstacionActual <
        (clienteTras e s).estaciones.length →
      ((procesarFinServicio e s).clientes.getD (e.idCliente.getD 0)
        default).tiempoEntradaCola = s.tiempoActual) ∧
    (∀ (idE idC : ℕ) (resto : List ℕ) (j : ℕ) (s : SimulacionColas),
      (s.estaciones.getD idE default).colaEspera = idC :: resto →
      (s.estaciones.getD idE default).servidorOcupado.findIdx?
        (fun ocupado => !ocupado) = some j →
      idC < s.clientes.length →
      ((iniciarServicio idE s).clientes.getD idC default).tiempoEsperaTotal =
        (s.clientes.getD idC default).tiempoEsperaTotal +
          (s.tiempoActual - (s.clientes.getD idC default).tiempoEntradaCola)) := by
  refine ⟨?_, ?_, ?_⟩
  · intro s
    constructor
    · rw [procesarLlegada_eq, programa_clientes]
      split_ifs with hdisp
      · rw [(iniciar_preserva CAJAS (creaCliente s) s.clientes.length).2.2.1]
        show ((s.clientes ++ [clienteNuevo s]).getD s.clientes.length
          default).tiempoEntradaCola = s.tiempoActual
        rw [getD_append_self]
        rfl
      · show ((s.clientes ++ [clienteNuevo s]).getD s.clientes.length
          default).tiempoEntradaCola = s.tiempoActual
        rw [getD_append_self]
        rfl
    · rw [procesarLlegada_eq, programa_clientes]
      split_ifs with hdisp
      · rw [(iniciar_preserva CAJAS (creaCliente s) s.clientes.length).2.2.2]
        show ((s.clientes ++ [clienteNuevo s]).getD s.clientes.length
          default).tiempoLlegada = s.tiempoActual
        rw [getD_append_self]
        rfl
      · show ((s.clientes ++ [clienteNuevo s]).getD s.clientes.length
          default).tiempoLlegada = s.tiempoActual
        rw [getD_append_self]
        rfl
  · intro e s hlt hroute
    rw [procesarFinServicio_eq, atiende_entrada]
    have hlt' : e.idCliente.getD 0 < (avanzaCliente e s).clientes.length := by
      rw [(avanzaCliente_campos e s).2.2.2.2.2]
      exact hlt
    rw [enruta_entrada _ _ _ hroute hlt']
    rfl
  · intro idE idC resto j s hq hfj hlt
    rw [iniciar_sirve idE idC resto j s hq hfj]
    exact sirve_espera idE idC resto j s hlt

theorem c5_espera_por_estacion_testigo :
    (((procesarLlegada simIni).clientes.getD simIni.clientes.length
        default).tiempoEntradaCola = simIni.tiempoActual ∧
      ((procesarLlegada simIni).clientes.getD simIni.clientes.length
        default).tiempoLlegada = simIni.tiempoActual) ∧
    ((procesarFinServicio evFin simFin).clientes.getD (evFin.idCliente.getD 0)
      default).tiempoEntradaCola = simFin.tiempoActual ∧
    ((iniciarServicio 0 simCola).clientes.getD 0 default).tiempoEsperaTotal =
      (simCola.clientes.getD 0 default).tiempoEsperaTotal +
        (simCola.tiempoActual -
          (simCola.clientes.getD 0 default).tiempoEntradaCola) := by
  refine ⟨c5_espera_por_estacion.1 simIni, ?_, ?_⟩
  · exact c5_espera_por_estacion.2.1 evFin simFin (by decide) (by decide)
  · exact c5_espera_por_estacion.2.2 0 0 [] 0 simCola rfl rfl (by decide)

/-- C9: progreso monótono de la ruta: el índice de progreso del cliente creado
por una llegada arranca en 0, no decrece ni en una iteración del bucle ni a lo
largo de la ejecución, en todo estado alcanzable nunca supera la longitud de la
ruta, y un cliente se agrega al conjunto de completados exactamente cuando su
índice alcanza la longitud de su ruta. -/
theorem c9_progreso_monotono (s : SimulacionColas) (i fuel : ℕ)
    (hInv : Inv s) :
    ((procesarLlegada s).clientes.getD s.clientes.length
      default).indiceEstacionActual = 0 ∧
    idxAt s i ≤ idxAt (paso s) i ∧
    idxAt s i ≤ idxAt (ejecutarAux fuel s) i ∧
    (∀ c ∈ s.clientes, c.indiceEstacionActual ≤ c.estaciones.length) ∧
    ((paso s).clientesCompletados = s.clientesCompletados ∨
      ∃ c, (paso s).clientesCompletados = s.clientesCompletados ++ [c] ∧
        c.indiceEstacionActual = c.estaciones.length) := by
  refine ⟨?_, paso_idx s i, ejecutarAux_idx fuel s i,
    hInv.2.2.2.2.2.2.2.1, ?_⟩
  · have h := procesarLlegada_idx s s.clientes.length
    unfold idxAt at h
    rw [h, List.getD_eq_default _ _ (le_refl _)]
    rfl
  · cases hpop : popMin s.colaEventos with
    | none => left; rw [paso_vacio hpop]
    | some p =>
      obtain ⟨e, rest⟩ := p
      cases htipo : e.tipo with
      | llegada =>
        left
        rw [paso_llegada hpop htipo]
        split_ifs with ht
        · rw [procesarLlegada_completados]
          rfl
        · rfl
      | finServicio =>
        rw [paso_fin hpop htipo]
        have hfe := fin_payload hInv hpop htipo
        obtain ⟨hid, hnm⟩ := avanza_fin_datos hInv hpop hfe
        have hle : (clienteTras e (avanza s e rest)).indiceEstacionActual ≤
            (clienteTras e (avanza s e rest)).estaciones.length := by
          have h1 : (clienteTras e (avanza s e rest)).indiceEstacionActual =
              ((avanza s e rest).clientes.getD (e.idCliente.getD 0)
                default).indiceEstacionActual + 1 := rfl
          have h2 : (clienteTras e (avanza s e rest)).estaciones =
              ((avanza s e rest).clientes.getD (e.idCliente.getD 0)
                default).estaciones := rfl
          have h3 := hid.2
          rw [h1, h2]
          omega
        rcases procesarFin_completados e (avanza s e rest) hle with hc | ⟨hc, hl⟩
        · left
          rw [hc]
          rfl
        · right
          refine ⟨clienteTras e (avanza s e rest), ?_, hl⟩
          rw [hc]
          rfl

theorem c9_progreso_monotono_testigo :
    ((procesarLlegada simIni).clientes.getD simIni.clientes.length
      default).indiceEstacionActual = 0 ∧
    idxAt simIni 0 ≤ idxAt (paso simIni) 0 ∧
    idxAt simIni 0 ≤ idxAt (ejecutarAux 5 simIni) 0 ∧
    (∀ c ∈ simIni.clientes, c.indiceEstacionActual ≤ c.estaciones.length) ∧
    ((paso simIni).clientesCompletados = simIni.clientesCompletados ∨
      ∃ c, (paso simIni).clientesCompletados =
          simIni.clientesCompletados ++ [c] ∧
        c.indiceEstacionActual = c.estaciones.length) :=
  c9_progreso_monotono simIni 0 5 invSimIni

theorem getD_replicate {α : Type _} (a : α) :
    ∀ (n j : ℕ), (List.replicate n a).getD j a = a
  | 0, _ => by simp [List.getD]
  | _ + 1, 0 => rfl
  | n + 1, j + 1 => getD_replicate a n j

/-- Probabilidades con la estación REFRESCOS en 0, para el testigo de C4. -/
def probCero : List ℚ := [1, 0, 0, 0, 0]

def simCero : SimulacionColas :=
  { rng := genUno, probabilidadesEstaciones := probCero }

/-- C4: generación de rutas: la ruta de todo cliente comienza incondicionalmente
por CAJAS; cada estación opcional k (1..4) aparece exactamente cuando el sorteo
de Bernoulli leído en la posición pos + k del flujo cae por debajo de su
probabilidad; y si la probabilidad de una estación opcional es 0, la estación no
aparece en la ruta de ningún cliente (creado o completado) de toda la ejecución
y su utilización es exactamente 0. -/
theorem c4_rutas (s sM : SimulacionColas) (cfg : ConfiguracionServidores)
    (k fuel : ℕ) (hk1 : 1 ≤ k) (hk4 : k ≤ 4)
    (hp : sM.probabilidadesEstaciones.getD k 0 = 0)
    (hpos : FlujoAcotado 0 sM.rng) :
    ((procesarLlegada s).clientes.getD s.clientes.length default).estaciones =
      rutaDe s ∧
    (∃ resto, rutaDe s = CAJAS :: resto) ∧
    (∀ m, 1 ≤ m → m ≤ 4 → (m ∈ rutaDe s ↔
      s.rng.f (s.rng.pos + m) < s.probabilidadesEstaciones.getD m 0)) ∧
    (∀ c ∈ (ejecutar fuel (inicializar sM cfg)).clientes, k ∉ c.estaciones) ∧
    (∀ c ∈ (ejecutar fuel (inicializar sM cfg)).clientesCompletados,
      k ∉ c.estaciones) ∧
    (getEstadisticas (ejecutar fuel
      (inicializar sM cfg))).utilizacionEstaciones.getD k 0 = 0 := by
  have hint : intocada k (ejecutarAux fuel (inicializar sM cfg)) := by
    refine ejecutarAux_intocada hk1 fuel (inicializar sM cfg) hp
      (fun n => hpos n) ?_
    refine ⟨?_, ?_, ?_, ?_⟩
    · intro c hc
      cases hc
    · intro c hc
      cases hc
    · intro e he
      rw [show (inicializar sM cfg).colaEventos =
        [⟨sM.rng.f sM.rng.pos, TipoEvento.llegada, none, none⟩] from rfl,
        List.mem_singleton] at he
      subst he
      intro hcon
      cases hcon
    · show (([mkEstacion CAJAS cfg.cajas, mkEstacion REFRESCOS cfg.refrescos,
        mkEstacion FREIDORA cfg.freidora, mkEstacion POSTRES cfg.postres,
        mkEstacion POLLO cfg.pollo]).getD k default).tiempoTotalOcupado = 0
      interval_cases k <;> rfl
  refine ⟨?_, ruta_cabeza s, ?_, hint.1, hint.2.1, ?_⟩
  · rw [procesarLlegada_eq, programa_clientes]
    split_ifs with hdisp
    · rw [(iniciar_preserva CAJAS (creaCliente s) s.clientes.length).2.1]
      show ((s.clientes ++ [clienteNuevo s]).getD s.clientes.length
        default).estaciones = rutaDe s
      rw [getD_append_self]
      rfl
    · show ((s.clientes ++ [clienteNuevo s]).getD s.clientes.length
        default).estaciones = rutaDe s
      rw [getD_append_self]
      rfl
  · intro m h1 h4
    rw [ruta_mem_opcional s m h1 h4]
    unfold visita
    exact decide_eq_true_iff
  · have hacc : ((ejecutar fuel (inicializar sM cfg)).estaciones.getD k
        default).tiempoTotalOcupado = 0 := hint.2.2.2
    by_cases hz : (ejecutar fuel (inicializar sM cfg)).clientesCompletados.length = 0
    · simp only [getEstadisticas]
      rw [if_pos hz]
      show (List.replicate NUM_EST (0 : ℚ)).getD k 0 = 0
      exact getD_replicate 0 NUM_EST k
    · simp only [getEstadisticas]
      rw [if_neg hz]
      show ((List.range NUM_EST).map (fun i =>
        ((ejecutar fuel (inicializar sM cfg)).estaciones.getD i
          default).getUtilizacion
            (if 0 < (ejecutar fuel (inicializar sM cfg)).tiempoFinalReal then
              (ejecutar fuel (inicializar sM cfg)).tiempoFinalReal
             else (ejecutar fuel
               (inicializar sM cfg)).duracionSimulacion))).getD k 0 = 0
      rw [show List.range NUM_EST = [0, 1, 2, 3, 4] from rfl]
      interval_cases k
      · exact util_cero hacc _
      · exact util_cero hacc _
      · exact util_cero hacc _
      · exact util_cero hacc _

theorem c4_rutas_testigo :
    ((procesarLlegada simIni).clientes.getD simIni.clientes.length
      default).estaciones = rutaDe simIni ∧
    (∃ resto, rutaDe simIni = CAJAS :: resto) ∧
    (∀ m, 1 ≤ m → m ≤ 4 → (m ∈ rutaDe simIni ↔
      simIni.rng.f (simIni.rng.pos + m) <
        simIni.probabilidadesEstaciones.getD m 0)) ∧
    (∀ c ∈ (ejecutar 5 (inicializar simCero cfgUnos)).clientes,
      1 ∉ c.estaciones) ∧
    (∀ c ∈ (ejecutar 5 (inicializar simCero cfgUnos)).clientesCompletados,
      1 ∉ c.estaciones) ∧
    (getEstadisticas (ejecutar 5
      (inicializar simCero cfgUnos))).utilizacionEstaciones.getD 1 0 = 0 :=
  c4_rutas simIni simCero cfgUnos 1 5 (by norm_num) (by norm_num) rfl
    (fun n => le_trans (by norm_num) (flujoGenUno n))

/-- C1: semántica de horizonte y drenado de `ejecutar`: el bucle extrae siempre
un evento de tiempo mínimo; un evento de llegada se procesa sólo si el reloj
queda estrictamente por debajo del horizonte mientras que un fin de servicio se
procesa siempre; la siguiente llegada se encola sólo si su tiempo sorteado cae
estrictamente antes del horizonte; y con pasos suficientes (la medida del
estado) el bucle termina con la cola de eventos vacía, conservando el
invariante de alcanzabilidad. -/
theorem c1_horizonte (s : SimulacionColas) (l rest : List Evento) (e : Evento)
    (n : ℕ) (delta : ℚ) (hdelta : 0 < delta) (hInv : Inv s)
    (hf : FlujoAcotado delta s.rng) (hm : medida delta s ≤ n)
    (hpop : popMin l = some (e, rest)) :
    (∀ e2 ∈ l, e.tiempo ≤ e2.tiempo) ∧
    (∀ (s2 : SimulacionColas) (e2 : Evento) (r2 : List Evento),
      popMin s2.colaEventos = some (e2, r2) →
      (e2.tipo = TipoEvento.llegada → e2.tiempo < s2.duracionSimulacion →
        paso s2 = procesarLlegada (avanza s2 e2 r2)) ∧
      (e2.tipo = TipoEvento.llegada → ¬ e2.tiempo < s2.duracionSimulacion →
        paso s2 = avanza s2 e2 r2) ∧
      (e2.tipo = TipoEvento.finServicio →
        paso s2 = procesarFinServicio e2 (avanza s2 e2 r2))) ∧
    (∀ s3 : SimulacionColas,
      (s3.tiempoActual + s3.rng.f s3.rng.pos < s3.duracionSimulacion →
        (programaLlegada s3).colaEventos = s3.colaEventos ++
          [⟨s3.tiempoActual + s3.rng.f s3.rng.pos, TipoEvento.llegada, none,
            none⟩]) ∧
      (¬ s3.tiempoActual + s3.rng.f s3.rng.pos < s3.duracionSimulacion →
        (programaLlegada s3).colaEventos = s3.colaEventos)) ∧
    (ejecutarAux n s).colaEventos = [] ∧ Inv (ejecutarAux n s) := by
  have hdrena := drena hdelta n s hInv hf hm
  refine ⟨popMin_le l e rest hpop, ?_, ?_, hdrena.1, hdrena.2⟩
  · intro s2 e2 r2 hpop2
    refine ⟨?_, ?_, ?_⟩
    · intro htipo ht
      rw [paso_llegada hpop2 htipo]
      exact if_pos (show (avanza s2 e2 r2).tiempoActual <
        (avanza s2 e2 r2).duracionSimulacion from ht)
    · intro htipo ht
      rw [paso_llegada hpop2 htipo]
      exact if_neg (show ¬ (avanza s2 e2 r2).tiempoActual <
        (avanza s2 e2 r2).duracionSimulacion from ht)
    · intro htipo
      exact paso_fin hpop2 htipo
  · intro s3
    constructor
    · intro hlt
      rw [programaLlegada_spec, if_pos hlt]
    · intro hlt
      rw [programaLlegada_spec, if_neg hlt]

theorem c1_horizonte_testigo :
    (∀ e2 ∈ simIni.colaEventos,
      (⟨1, TipoEvento.llegada, none, none⟩ : Evento).tiempo ≤ e2.tiempo) ∧
    (∀ (s2 : SimulacionColas) (e2 : Evento) (r2 : List Evento),
      popMin s2.colaEventos = some (e2, r2) →
      (e2.tipo = TipoEvento.llegada → e2.tiempo < s2.duracionSimulacion →
        paso s2 = procesarLlegada (avanza s2 e2 r2)) ∧
      (e2.tipo = TipoEvento.llegada → ¬ e2.tiempo < s2.duracionSimulacion →
        paso s2 = avanza s2 e2 r2) ∧
      (e2.tipo = TipoEvento.finServicio →
        paso s2 = procesarFinServicio e2 (avanza s2 e2 r2))) ∧
    (∀ s3 : SimulacionColas,
      (s3.tiempoActual + s3.rng.f s3.rng.pos < s3.duracionSimulacion →
        (programaLlegada s3).colaEventos = s3.colaEventos ++
          [⟨s3.tiempoActual + s3.rng.f s3.rng.pos, TipoEvento.llegada, none,
            none⟩]) ∧
      (¬ s3.tiempoActual + s3.rng.f s3.rng.pos < s3.duracionSimulacion →
        (programaLlegada s3).colaEventos = s3.colaEventos)) ∧
    (ejecutarAux 6000 simIni).colaEventos = [] ∧ Inv (ejecutarAux 6000 simIni) :=
  c1_horizonte simIni simIni.colaEventos []
    ⟨1, TipoEvento.llegada, none, none⟩ 6000 1 (by norm_num) invSimIni
    flujoGenUno
    (by
      have h1 : medida 1 simIni =
          12 * (⌈(((480 : ℚ) - 1) / 1 : ℚ)⌉).toNat + 1 := rfl
      rw [h1]
      norm_num
      decide)
    rfl

/-- Una ejecución completa: construir, inicializar y correr el motor. -/
def corre (dur lam : ℚ) (g : GeneradorAleatorio)
    (cfg : ConfiguracionServidores) (fuel : ℕ) : SimulacionColas :=
  ejecutar fuel (inicializar (mkSimulacion dur lam g) cfg)

/-- Media de las esperas acumuladas de los clientes completados. -/
def mediaEspera (l : List Cliente) : ℚ :=
  (l.map (fun c => c.tiempoEsperaTotal)).sum / l.length

/-- Varianza poblacional de las esperas (dividiendo por el total, no por
total − 1). -/
def varianzaEspera (l : List Cliente) : ℚ :=
  (l.map (fun c => (c.tiempoEsperaTotal - mediaEspera l) *
    (c.tiempoEsperaTotal - mediaEspera l))).sum / l.length

/-- Media del tiempo total en el sistema (espera acumulada + servicio
acumulado). -/
def mediaSistema (l : List Cliente) : ℚ :=
  (l.map (fun c => c.getTiempoTotal)).sum / l.length

/-- C2: para todo estado final de una ejecución con al menos un cliente
completado, `getEstadisticas` devuelve el número de completados, la media de
sus esperas acumuladas, la varianza poblacional de esas esperas, la media del
tiempo total (espera + servicio), y la utilización por estación evaluada con
el tiempo del último evento procesado (`tiempoFinalReal`) como denominador, no
con el horizonte nominal. -/
theorem c2_estadisticas (dur lam delta : ℚ) (g : GeneradorAleatorio)
    (cfg : ConfiguracionServidores) (fuel : ℕ) (hd : 0 ≤ delta)
    (hg : FlujoAcotado delta g)
    (hne : (corre dur lam g cfg fuel).clientesCompletados ≠ []) :
    (getEstadisticas (corre dur lam g cfg fuel)).totalClientes =
      (corre dur lam g cfg fuel).clientesCompletados.length ∧
    (getEstadisticas (corre dur lam g cfg fuel)).tiempoEsperaPromedio =
      mediaEspera (corre dur lam g cfg fuel).clientesCompletados ∧
    (getEstadisticas (corre dur lam g cfg fuel)).varianzaTiempoEspera =
      varianzaEspera (corre dur lam g cfg fuel).clientesCompletados ∧
    (getEstadisticas (corre dur lam g cfg fuel)).tiempoSistemaPromedio =
      mediaSistema (corre dur lam g cfg fuel).clientesCompletados ∧
    (getEstadisticas (corre dur lam g cfg fuel)).utilizacionEstaciones =
      (List.range NUM_EST).map (fun i =>
        ((corre dur lam g cfg fuel).estaciones.getD i default).getUtilizacion
          (corre dur lam g cfg fuel).tiempoFinalReal) := by
  have hInv0 : Inv (inicializar (mkSimulacion dur lam g) cfg) :=
    inv_inicial dur lam g cfg hd hg
  have hfA : FlujoAcotado delta (inicializar (mkSimulacion dur lam g) cfg).rng :=
    fun n => hg n
  have hInvA : Inv (ejecutarAux fuel (inicializar (mkSimulacion dur lam g) cfg)) :=
    ejecutarAux_inv hd fuel _ hInv0 hfA
  have hcomp : ∀ c ∈ (corre dur lam g cfg fuel).clientesCompletados,
      c.estaciones.length ≤ c.indiceEstacionActual := by
    intro c hc
    exact le_of_eq (hInvA.2.2.2.2.2.2.2.2.2.2.1 c hc).symm
  have hlen0 : ¬ (corre dur lam g cfg fuel).clientesCompletados.length = 0 :=
    fun h => hne (List.length_eq_zero.mp h)
  refine ⟨?_, ?_, ?_, ?_, ?_⟩
  · simp only [getEstadisticas]
    rw [if_neg hlen0]
  · simp only [getEstadisticas]
    rw [if_neg hlen0,
      foldl_guard _ (fun c => c.tiempoEsperaTotal) _ 0 hcomp]
    simp only [zero_add]
    rfl
  · simp only [getEstadisticas]
    rw [if_neg hlen0,
      foldl_guard _ (fun c => c.tiempoEsperaTotal) _ 0 hcomp]
    simp only [zero_add]
    rw [foldl_guard _ _ _ 0 hcomp]
    simp only [zero_add]
    rfl
  · simp only [getEstadisticas]
    rw [if_neg hlen0,
      foldl_guard _ (fun c => Cliente.getTiempoTotal c) _ 0 hcomp]
    simp only [zero_add]
    rfl
  · simp only [getEstadisticas]
    rw [if_neg hlen0]
    by_cases hT : 0 < (corre dur lam g cfg fuel).tiempoFinalReal
    · rw [if_pos hT]
    · rw [if_neg hT]
      have h3 : (0 : ℚ) ≤ (corre dur lam g cfg fuel).tiempoFinalReal :=
        hInvA.2.2.1
      have hTz : (corre dur lam g cfg fuel).tiempoFinalReal = 0 :=
        le_antisymm (not_lt.mp hT) h3
      have hacc0 : ∀ st ∈ (corre dur lam g cfg fuel).estaciones,
          st.tiempoTotalOcupado = 0 := by
        intro st hst
        obtain ⟨_, hlast, hlast0, haccnn, hub⟩ :=
          hInvA.2.2.2.2.2.2.1 st hst
        have hlast2 : st.tiempoUltimoCambio ≤ 0 := by
          refine le_trans hlast ?_
          exact le_of_eq hTz
        have hl0 : st.tiempoUltimoCambio = 0 := le_antisymm hlast2 hlast0
        rw [hl0, mul_zero] at hub
        exact le_antisymm hub haccnn
      have hmaps : (List.range NUM_EST).map (fun i =>
          ((corre dur lam g cfg fuel).estaciones.getD i default).getUtilizacion
            (corre dur lam g cfg fuel).duracionSimulacion) =
          (List.range NUM_EST).map (fun i =>
          ((corre dur lam g cfg fuel).estaciones.getD i default).getUtilizacion
            (corre dur lam g cfg fuel).tiempoFinalReal) := by
        refine List.map_congr_left ?_
        intro i hi
        rw [List.mem_range] at hi
        have h1 : (corre dur lam g cfg fuel).estaciones.length = NUM_EST :=
          hInvA.1
        have hilen : i < (corre dur lam g cfg fuel).estaciones.length := by
          omega
        have hst := hacc0 ((corre dur lam g cfg fuel).estaciones.getD i
          default) (getD_mem _ i default hilen)
        rw [util_cero hst, util_cero hst]
      exact hmaps

theorem c2_estadisticas_testigo :
    (corre 480 3 genUno cfgUnos 5).clientesCompletados ≠ [] ∧
    ((getEstadisticas (corre 480 3 genUno cfgUnos 5)).totalClientes =
      (corre 480 3 genUno cfgUnos 5).clientesCompletados.length ∧
    (getEstadisticas (corre 480 3 genUno cfgUnos 5)).tiempoEsperaPromedio =
      mediaEspera (corre 480 3 genUno cfgUnos 5).clientesCompletados ∧
    (getEstadisticas (corre 480 3 genUno cfgUnos 5)).varianzaTiempoEspera =
      varianzaEspera (corre 480 3 genUno cfgUnos 5).clientesCompletados ∧
    (getEstadisticas (corre 480 3 genUno cfgUnos 5)).tiempoSistemaPromedio =
      mediaSistema (corre 480 3 genUno cfgUnos 5).clientesCompletados ∧
    (getEstadisticas (corre 480 3 genUno cfgUnos 5)).utilizacionEstaciones =
      (List.range NUM_EST).map (fun i =>
        ((corre 480 3 genUno cfgUnos 5).estaciones.getD i
          default).getUtilizacion
            (corre 480 3 genUno cfgUnos 5).tiempoFinalReal)) := by
  have hne : (corre 480 3 genUno cfgUnos 5).clientesCompletados ≠ [] := by
    with_unfolding_all decide
  exact ⟨hne, c2_estadisticas 480 3 1 genUno cfgUnos 5 (by norm_num)
    flujoGenUno hne⟩

end SimColas
